import Mathlib

/-!
Verification development for the DailyPapers daily paper-triage pipeline.

The Python sources are shallowly embedded as executable Lean definitions:

* `src/src/paper_analyzer.py` — the OCR response parser (`parse_ocr_response`),
  the per-page OCR collection/reordering step of `extract_ocr_only`, and the
  retry loop of `analyze_paper_content`;
* `src/src/utils.py` — `download_pdf` and `sanitize_filename`;
* `src/src/llm_agent.py` — the retry loop of `analyze_paper_with_structure`;
* `src/main.py` — the per-paper pipeline `process_paper_async`, the result
  bucketing in `main_async`, and `generate_daily_report`.

External effects (LLM calls, OCR backend calls, the network, the filesystem)
are modelled as explicit oracle parameters / finite-map states, and the side
effects performed by a pipeline run are collected in an explicit effect trace.
Character classes of the Python regexes are modelled on their ASCII fragment
(the data processed by the pipeline — arXiv metadata and OCR tags — is ASCII
in the relevant positions).
-/

namespace DailyPapers

/-! ## Python string primitives -/

/-- Python whitespace as used by `str.strip()` and the regex class `\s`
(ASCII fragment): space, tab, newline, carriage return, vertical tab, form feed. -/
def pySpace (c : Char) : Bool :=
  c = ' ' || c = '\t' || c = '\n' || c = '\r' || c = '\x0b' || c = '\x0c'

/-- The regex class `\w` (ASCII fragment): letters, digits, underscore. -/
def wordChar (c : Char) : Bool :=
  c.isAlpha || c.isDigit || c = '_'

/-- The regex class `[\d,\s,]` from the tag pattern of `parse_ocr_response`:
digits, comma, whitespace. -/
def rectChar (c : Char) : Bool :=
  c.isDigit || c = ',' || pySpace c

/-- The regex class `[,\s]` used by `re.split` inside `parse_ocr_response`. -/
def splitChar (c : Char) : Bool :=
  c = ',' || pySpace c

/-- Python `str.strip()` on a character list. -/
def pyStrip (s : List Char) : List Char :=
  ((s.dropWhile pySpace).reverse.dropWhile pySpace).reverse

/-- Value of a decimal digit string (the semantics of Python `int(x)` on a
string of decimal digits). -/
def digitsVal (s : List Char) : Nat :=
  s.foldl (fun a c => 10 * a + (c.toNat - '0'.toNat)) 0

/-- Python `int(x)`, restricted to the strings that can occur as pieces of the
rect group of the tag regex (runs of non-`[,\s]` characters drawn from
`[\d,\s,]`, i.e. digit runs).  `none` models a raised `ValueError`. -/
def pyInt? (s : List Char) : Option Int :=
  if s ≠ [] ∧ s.all Char.isDigit then some (digitsVal s) else none

/-- `re.split(r'[,\s]+', s)` followed by discarding empty pieces (the source
filters the pieces with `if x`): the maximal runs of non-`[,\s]` characters.
`acc` is the current run, reversed. -/
def runsAux : List Char → List Char → List (List Char)
  | [], acc => if acc = [] then [] else [acc.reverse]
  | c :: rest, acc =>
    if splitChar c then
      if acc = [] then runsAux rest [] else acc.reverse :: runsAux rest []
    else
      runsAux rest (c :: acc)

/-- The nonempty pieces of splitting on runs of `[,\s]` characters. -/
def splitPieces (s : List Char) : List (List Char) :=
  runsAux s []

/-- The list comprehension `[int(x) for x in pieces]`: all-or-nothing, since a
single `ValueError` aborts the whole comprehension. -/
def parseInts : List (List Char) → Option (List Int)
  | [] => some []
  | p :: rest =>
    match pyInt? p, parseInts rest with
    | some v, some vs => some (v :: vs)
    | _, _ => none

/-- `[int(x) for x in re.split(r'[,\s]+', rect_str.strip()) if x]`;
`none` models the `ValueError` caught by the `except` in the source. -/
def parseRect (rect : List Char) : Option (List Int) :=
  parseInts (splitPieces (pyStrip rect))

/-! ## `parse_ocr_response` (src/src/paper_analyzer.py, lines 210–240)

The tag pattern is `(?P<type>\w+)\[\[(?P<rect>[\d,\s,]+)\]\]`.  For this
pattern, backtracking never helps: `\w+` must end exactly at the first `[`
(shortening it leaves a word character where `[` is required), and
`[\d,\s,]+` must end exactly at the first character outside its class
(shortening it leaves a class character where `]` is required).  A match
attempt at a position therefore succeeds iff, from that position, a nonempty
maximal run of word characters is followed by `[[`, a nonempty maximal run of
rect characters, and `]]`. -/

/-- One regex match: the `type` and `rect` groups plus the absolute start and
end offsets reported by `match.start()` / `match.end()`. -/
structure TagMatch where
  type : List Char
  rect : List Char
  start : Nat
  stop : Nat
  deriving Repr, DecidableEq

/-- Attempt to match the tag pattern at the head of `s`: a nonempty maximal
run of word characters, the two literal brackets, a nonempty maximal run of
rect characters, and the two closing brackets.  Returns the two groups and the
length of the match. -/
def tryTagMatch (s : List Char) : Option (List Char × List Char × Nat) :=
  let ty := s.takeWhile wordChar
  if ty = [] then none
  else
    let r₀ := s.drop ty.length
    if r₀.take 2 = ['[', '['] then
      let s₁ := r₀.drop 2
      let rect := s₁.takeWhile rectChar
      if rect = [] then none
      else if (s₁.drop rect.length).take 2 = [']', ']'] then
        some (ty, rect, ty.length + rect.length + 4)
      else none
    else none

/-- `re.finditer` scan: try a match at every position, left to right; after a
match, resume at the end of the match (`skip` counts positions still to be
skipped over); `pos` is the absolute offset of the head of the list. -/
def scanTags : List Char → Nat → Nat → List TagMatch
  | [], _, _ => []
  | _ :: rest, skip + 1, pos => scanTags rest skip (pos + 1)
  | c :: rest, 0, pos =>
    match tryTagMatch (c :: rest) with
    | some (ty, rect, len) =>
      ⟨ty, rect, pos, pos + len⟩ :: scanTags rest (len - 1) (pos + 1)
    | none => scanTags rest 0 (pos + 1)

/-- `list(tag_pattern.finditer(content))`. -/
def findTagMatches (content : List Char) : List TagMatch :=
  scanTags content 0 0

/-- One parsed region, as appended to `items` by `parse_ocr_response`. -/
structure OcrItem where
  type : List Char
  bbox : List Int
  text : List Char
  deriving Repr, DecidableEq

/-- The loop body of `parse_ocr_response`: for each match, parse its rect
group (skipping the item on `ValueError`) and slice the text between the end
of this match and the start of the next one (or the end of the content). -/
def itemsOfMatches (content : List Char) : List TagMatch → List OcrItem
  | [] => []
  | m :: rest =>
    let endIdx := match rest with
      | [] => content.length
      | m₂ :: _ => m₂.start
    let text := pyStrip ((content.drop m.stop).take (endIdx - m.stop))
    match parseRect m.rect with
    | none => itemsOfMatches content rest
    | some bbox => ⟨m.type, bbox, text⟩ :: itemsOfMatches content rest

/-- `parse_ocr_response` (src/src/paper_analyzer.py, lines 210–240). -/
def parseOcrResponse (content : List Char) : List OcrItem :=
  itemsOfMatches content (findTagMatches content)

/-! ## `src/src/utils.py` -/

/-- The character class removed by `sanitize_filename`. -/
def illegalChar (c : Char) : Bool :=
  c = '\\' || c = '/' || c = '*' || c = '?' || c = ':' || c = '"' ||
  c = '<' || c = '>' || c = '|'

/-- `sanitize_filename` (src/src/utils.py, lines 7–9):
`re.sub(r'[\\/*?:"<>|]', "", filename).strip().replace(' ', '_')`. -/
def sanitizeFilename (s : List Char) : List Char :=
  (pyStrip (s.filter (fun c => !illegalChar c))).map
    (fun c => if c = ' ' then '_' else c)

/-- Outcome of one HTTP GET in `download_pdf`: a 200 response whose body has
`size` bytes, a non-200 status, a `requests.exceptions.Timeout`, or another
exception. -/
inductive NetResponse where
  | ok (size : Nat)
  | httpError (code : Nat)
  | timeout
  | failure
  deriving Repr, DecidableEq

/-- The network as seen by `download_pdf`: outcome of the GET performed on
each attempt. -/
structure DownloadEnv where
  net : Nat → NetResponse

/-- The retry loop of `download_pdf` (src/src/utils.py, lines 20–61).  The
state is the file system restricted to file sizes (path ↦ size).  Returns the
boolean result, the final file system, and the number of network requests
performed.  `remaining` is the number of loop iterations left
(`attempt < max_retries - 1` iff `remaining > 0` after taking one). -/
def downloadLoop (net : Nat → NetResponse) (savePath : String) :
    (String → Option Nat) → Nat → Nat → Bool × (String → Option Nat) × Nat
  | fs, _, 0 => (false, fs, 0)
  | fs, attempt, remaining + 1 =>
    match net attempt with
    | .ok size =>
      let fs₂ : String → Option Nat := fun p => if p = savePath then some size else fs p
      if 10240 < size then (true, fs₂, 1)
      else if remaining = 0 then (false, fs₂, 1)
      else
        let r := downloadLoop net savePath fs₂ (attempt + 1) remaining
        (r.1, r.2.1, r.2.2 + 1)
    | _ =>
      if remaining = 0 then (false, fs, 1)
      else
        let r := downloadLoop net savePath fs (attempt + 1) remaining
        (r.1, r.2.1, r.2.2 + 1)

/-- `download_pdf` (src/src/utils.py, lines 11–61).  A file already present at
`save_path` with size strictly above 10240 bytes short-circuits the download.
The arXiv id only shapes the request URL, which the network model absorbs. -/
def downloadPdf (env : DownloadEnv) (fs : String → Option Nat)
    (_arxivId savePath : String) (maxRetries : Nat := 3) :
    Bool × (String → Option Nat) × Nat :=
  match fs savePath with
  | some size =>
    if 10240 < size then (true, fs, 0)
    else downloadLoop env.net savePath fs 0 maxRetries
  | none => downloadLoop env.net savePath fs 0 maxRetries

/-! ## Retry loops of the LLM call sites

`analyze_paper_with_structure` (src/src/llm_agent.py, lines 74–88) and
`analyze_paper_content` (src/src/paper_analyzer.py, lines 417–446) share the
same loop shape: `for attempt in range(max_retries): try: return <call>;
except: if attempt == max_retries - 1: return <fallback>`.  The call is an
oracle indexed by the attempt number; `none` models a raised exception.  If
`max_retries = 0` the loop body never runs and the Python function returns
`None`, modelled by the outer `none`. -/

def retryLoop (call : Nat → Option α) (fallback : α) : Nat → Nat → Option α
  | _, 0 => none
  | attempt, remaining + 1 =>
    match call attempt with
    | some r => some r
    | none =>
      if remaining = 0 then some fallback
      else retryLoop call fallback (attempt + 1) remaining

/-- The JSON object returned by a successful relevance-filter call, with the
keys read by the callers (`.get` on a missing key is `none`). -/
structure FilterAnalysis where
  interested : Bool
  reason : Option String
  category : Option String
  tags : Option (List String)
  summaryCn : Option String
  tricksCn : Option String
  deriving Repr, DecidableEq

/-- `{"interested": False}`, the value returned by
`analyze_paper_with_structure` after exhausting its retries. -/
def notInterestedFallback : FilterAnalysis :=
  { interested := false, reason := none, category := none, tags := none,
    summaryCn := none, tricksCn := none }

/-- `analyze_paper_with_structure` (src/src/llm_agent.py, lines 22–88),
reduced to its control flow: the prompt construction is absorbed into the call
oracle, which returns the parsed JSON or `none` for a raised exception. -/
def analyzePaperWithStructure (maxRetries : Nat)
    (call : Nat → Option FilterAnalysis) : Option FilterAnalysis :=
  retryLoop call notInterestedFallback 0 maxRetries

/-! ## OCR page collection (src/src/paper_analyzer.py) -/

/-- A figure candidate as produced by `extract_key_figures`. -/
structure KeyFigure where
  type : List Char
  page : Nat
  index : Nat
  caption : List Char
  bbox : List Int
  cropPath : String
  deriving Repr, DecidableEq

/-- The payload of a successful `process_single_page` call, minus the page
number (the OCR call chain's contribution). -/
structure PageData where
  items : List OcrItem
  rawText : List Char
  figures : List KeyFigure
  deriving Repr, DecidableEq

/-- One entry of `ocr_results`. -/
structure PageResult where
  page : Nat
  items : List OcrItem
  rawText : List Char
  figures : List KeyFigure
  deriving Repr, DecidableEq

/-- `process_single_page` (src/src/paper_analyzer.py, lines 164–207):
`page_num = page_idx + 1`; a failed OCR call or parse (`outcome = none`)
yields `None`, otherwise a result dict carrying that page number. -/
def processSinglePage (outcome : Option PageData) (pageIdx : Nat) :
    Option PageResult :=
  outcome.map (fun d => ⟨pageIdx + 1, d.items, d.rawText, d.figures⟩)

/-- The key comparison of `ocr_results.sort(key=lambda x: x['page'])`. -/
def pageLe (a b : PageResult) : Bool := a.page ≤ b.page

/-- The collection step of `extract_ocr_only` (src/src/paper_analyzer.py,
lines 833–841): results arriving from `as_completed` in an arbitrary
completion order are kept when non-`None` and then sorted by page number
(Python `list.sort` is a stable sort, modelled by `List.mergeSort`). -/
def collectOcrResults (completed : List (Option PageResult)) : List PageResult :=
  (completed.filterMap id).mergeSort pageLe

/-- The per-page task outputs of `extract_ocr_only` (lines 830–831): task `i`
processes image `i` and reports page number `i + 1`. -/
def ocrTaskOutputs (outcome : Nat → Option PageData) (n : Nat) :
    List (Option PageResult) :=
  (List.range n).map (fun i => processSinglePage (outcome i) i)

/-- The `=== Page n ===` block that `analyze_paper_content` appends to
`all_text` for one OCR page (lines 367–372). -/
def pageText (p : PageResult) : List Char :=
  "\n\n=== Page ".data ++ (Nat.repr p.page).data ++ " ===\n\n".data ++
    (p.items.map (fun it => '[' :: (it.type ++ ']' :: ' ' :: (it.text ++ ['\n'])))).flatten

/-- `all_text` with the truncation of lines 374–375. -/
def buildAllText (maxLength : Nat) (ocrResults : List PageResult) : List Char :=
  let allText := (ocrResults.map pageText).flatten
  if maxLength < allText.length then
    allText.take maxLength ++ "\n... (内容已截断)".data
  else allText

/-- `analyze_paper_content` (src/src/paper_analyzer.py, lines 357–446).  The
LLM call is an oracle taking the assembled OCR text and the attempt number; a
successful call returns the parsed JSON object and the token-info dict, both
modelled as association lists; `none` models a raised exception.  After the
final failed attempt the function returns `({}, {})`. -/
def analyzePaperContent (maxRetries maxLength : Nat)
    (ocrResults : List PageResult)
    (call : List Char → Nat → Option (List (String × String) × List (String × String))) :
    Option (List (String × String) × List (String × String)) :=
  retryLoop (call (buildAllText maxLength ocrResults)) ([], []) 0 maxRetries

/-! ## The per-paper pipeline (src/main.py, `process_paper_async`) -/

/-- The `analysis` JSON object stored in `analysis.json` / read back by
`generate_daily_report`, restricted to the keys the callers access. -/
structure AnalysisFields where
  titleCn : Option String
  authors : Option (List String)
  coreProblem : Option String
  coreContribution : Option (List String)
  methodSummary : Option String
  keyResults : Option String
  pros : Option (List String)
  deriving Repr, DecidableEq

/-- The result dict of `analyze_with_llm` (src/src/paper_analyzer.py, lines
945–951), restricted to the keys the callers access. -/
structure DeepResult where
  paperDir : String
  notePath : String
  analysis : AnalysisFields
  deriving Repr, DecidableEq

/-- The `ocr_data` dict returned by `extract_ocr_only` (lines 845–856),
restricted to the keys the callers access. -/
structure OcrData where
  paperName : String
  paperDir : String
  ocrResults : List PageResult
  deriving Repr, DecidableEq

/-- Bibliographic metadata of one paper, as produced by
`get_arxiv_metadata_stream`. -/
structure PaperMeta where
  title : String
  authors : List String
  summary : String
  pdfUrl : String
  deriving Repr, DecidableEq

/-- Externally observable side effects of one `process_paper_async` run. -/
inductive Effect where
  | filterCall
  | makeDirs (path : String)
  | downloadCall (path : String)
  | ocrCall (attempt : Nat)
  | llmAnalysisCall (attempt : Nat)
  | readNote (path : String)
  | generateNoteCall
  | archiveCall (category : String)
  deriving Repr, DecidableEq

/-- The environment of one `process_paper_async` run: the outcomes of every
external call it may perform. -/
structure PipelineEnv where
  /-- `max_retries` of the relevance-filter call (config `openai.max_retries`,
  default 3). -/
  filterRetries : Nat
  /-- Parsed JSON of the relevance-filter LLM call per attempt; `none` models
  a raised exception. -/
  filterCall : Nat → Option FilterAnalysis
  /-- Network outcomes seen by `utils.download_pdf`. -/
  dl : DownloadEnv
  /-- File sizes on disk before the download. -/
  fsSizes : String → Option Nat
  /-- Result of `paper_analyzer.extract_ocr_only` per `ocr_attempt`; `none`
  models failure. -/
  ocrOutcome : Nat → Option OcrData
  /-- Result of `paper_analyzer.analyze_with_llm` per `llm_attempt`; `none`
  models failure. -/
  llmOutcome : Nat → Option DeepResult
  /-- Contents of note files on disk. -/
  noteFile : String → Option String
  /-- Result of `llm_agent.generate_reading_note`. -/
  generatedNote : String

/-- The retry loop over `extract_ocr_only` (src/main.py, lines 88–105):
`max_ocr_retries = 2`, break on the first non-`None` result. -/
def ocrAttemptLoop (outcome : Nat → Option OcrData) :
    Nat → Nat → Option OcrData × List Effect
  | _, 0 => (none, [])
  | attempt, remaining + 1 =>
    match outcome attempt with
    | some d => (some d, [.ocrCall attempt])
    | none =>
      if remaining = 0 then (none, [.ocrCall attempt])
      else
        let r := ocrAttemptLoop outcome (attempt + 1) remaining
        (r.1, .ocrCall attempt :: r.2)

/-- The retry loop over `analyze_with_llm` (src/main.py, lines 114–131):
`max_llm_retries = 2`, break on the first non-`None` result. -/
def llmAttemptLoop (outcome : Nat → Option DeepResult) :
    Nat → Nat → Option DeepResult × List Effect
  | _, 0 => (none, [])
  | attempt, remaining + 1 =>
    match outcome attempt with
    | some d => (some d, [.llmAnalysisCall attempt])
    | none =>
      if remaining = 0 then (none, [.llmAnalysisCall attempt])
      else
        let r := llmAttemptLoop outcome (attempt + 1) remaining
        (r.1, .llmAnalysisCall attempt :: r.2)

/-- A terminal record returned by `process_paper_async`: the `ignored` dict of
lines 39–44, the `failed` dict of lines 68–73, or the `interested` dict of
lines 159–169. -/
inductive PaperResult where
  | ignored (title reason url : String)
  | failed (title reason url : String)
  | interested (title url category summaryCn tricksCn reason localPath : String)
      (deep : Option DeepResult)
  deriving Repr, DecidableEq

/-- The `status` field of a terminal record. -/
def statusOf : PaperResult → String
  | .ignored .. => "ignored"
  | .failed .. => "failed"
  | .interested .. => "interested"

/-- `process_paper_async` (src/main.py, lines 22–178) as a pure function from
the call-outcome environment to the terminal record and the effect trace.
`none` as the record models the `return None` of the outer exception handler
(reached when `meta['authors'][0]` raises on an empty author list, or when the
filter stage returned Python `None` so that `analysis.get` raises). -/
def processPaper (env : PipelineEnv) (arxivId : String) (meta : PaperMeta)
    (localDir : String) (skipDeep : Bool) : Option PaperResult × List Effect :=
  match analyzePaperWithStructure env.filterRetries env.filterCall with
  | none => (none, [.filterCall])
  | some analysis =>
    if analysis.interested = false then
      (some (.ignored meta.title (analysis.reason.getD "不感兴趣") meta.pdfUrl),
       [.filterCall])
    else
      let category := analysis.category.getD "Uncategorized"
      let categoryDir := localDir ++ "/" ++ category
      let effs₀ : List Effect := [.filterCall, .makeDirs categoryDir]
      match meta.authors with
      | [] => (none, effs₀)
      | firstAuthor :: _ =>
        let shortTitle := String.mk ((sanitizeFilename meta.title.data).take 40)
        let authorS := String.mk (sanitizeFilename firstAuthor.data)
        let paperDir := categoryDir ++ "/" ++ authorS ++ "_" ++ shortTitle
        let pdfPath := paperDir ++ "/" ++ authorS ++ "_" ++ shortTitle ++ ".pdf"
        let effs₁ := effs₀ ++ [.makeDirs paperDir]
        let dl := downloadPdf env.dl env.fsSizes arxivId pdfPath
        let effs₂ := effs₁ ++ [.downloadCall pdfPath]
        if dl.1 = false then
          (some (.failed meta.title "PDF下载失败" meta.pdfUrl), effs₂)
        else
          let deep : Option DeepResult × List Effect :=
            if skipDeep then (none, [])
            else
              match ocrAttemptLoop env.ocrOutcome 0 2 with
              | (none, ocrEffs) => (none, ocrEffs)
              | (some _, ocrEffs) =>
                let llm := llmAttemptLoop env.llmOutcome 0 2
                (llm.1, ocrEffs ++ llm.2)
          let effs₃ := effs₂ ++ deep.2
          let note : String × List Effect :=
            match deep.1 with
            | some d =>
              if d.notePath ≠ "" then
                ((env.noteFile d.notePath).getD "", [.readNote d.notePath])
              else ("", [])
            | none => ("", [])
          let note₂ : String × List Effect :=
            if note.1 = "" then (env.generatedNote, note.2 ++ [.generateNoteCall])
            else (note.1, note.2)
          (some (.interested meta.title meta.pdfUrl category
              (analysis.summaryCn.getD "无总结") (analysis.tricksCn.getD "无")
              (analysis.reason.getD "") pdfPath deep.1),
           effs₃ ++ note₂.2 ++ [.archiveCall category])

/-! ## Result bucketing (src/main.py, lines 458–461)

`main_async` gathers one `Option`-valued record per paper and buckets the
non-`None` records by their `status` string.  The records with status
`"failed"` form the third, implicit bucket: they are produced by lines 68–73
and are exactly the gathered records that land in neither named bucket. -/

/-- `[r for r in results if r and r.get('status') == 'interested']` (line 458). -/
def interestedBucket (results : List (Option PaperResult)) : List PaperResult :=
  (results.filterMap id).filter (fun r => statusOf r = "interested")

/-- `[r for r in results if r and r.get('status') == 'ignored']` (line 459). -/
def ignoredBucket (results : List (Option PaperResult)) : List PaperResult :=
  (results.filterMap id).filter (fun r => statusOf r = "ignored")

/-- The gathered records with status `"failed"` (produced at lines 68–73). -/
def failedBucket (results : List (Option PaperResult)) : List PaperResult :=
  (results.filterMap id).filter (fun r => statusOf r = "failed")

/-! ## `generate_daily_report` (src/main.py, lines 180–369) -/

/-- One entry of the `ignored` collection, restricted to the keys
`generate_daily_report` reads (`title` and `url` by indexing, `reason` via
`.get('reason', '未知原因')`). -/
structure IgnoredItem where
  title : String
  reason : Option String
  url : String
  deriving Repr, DecidableEq

/-- One entry of the `interested` collection, restricted to the keys
`generate_daily_report` reads. -/
structure ReportItem where
  title : String
  url : String
  category : Option String
  deep : Option DeepResult
  deriving Repr, DecidableEq

/-- The dict produced by `llm_agent.parse_note_content` plus the `category`,
`url` and `note_path` decorations of lines 206–208. -/
structure ParsedNote where
  title : String
  titleCn : String
  authors : List String
  category : String
  coreProblem : String
  coreContribution : List String
  methodSummary : String
  keyResults : String
  pros : List String
  url : String
  notePath : String
  deriving Repr, DecidableEq

/-- One entry of `papers_highlights` in a batch summary. -/
structure Highlight where
  keyMethod : String
  keyFinding : String
  resultHighlight : Option String
  deriving Repr, DecidableEq

/-- The JSON object returned by `llm_agent.summarize_papers_batch`.  A falsy
(`{}`) highlight entry is modelled as `none`. -/
structure BatchSummary where
  batchSummary : String
  technicalTrends : List String
  papersHighlights : List (Option Highlight)
  deriving Repr, DecidableEq

/-- The JSON object returned by `llm_agent.generate_final_daily_report`,
restricted to the keys read at lines 257–347 (`none` models a missing key). -/
structure FinalReport where
  dailyOverview : Option String
  keyInsights : List String
  directionSummary : List (String × String)
  notablePapers : List (String × String)
  futureTrends : Option String
  deriving Repr, DecidableEq

/-- External collaborators of `generate_daily_report`: the filesystem holding
note files, `llm_agent.parse_note_content`, the two LLM summarization calls,
and `os.path.relpath`. -/
structure ReportEnv where
  noteFs : String → Option String
  parseNote : String → ParsedNote
  summarizeBatch : List ParsedNote → Nat → BatchSummary
  finalReport : List BatchSummary → Nat → String → FinalReport
  relPath : String → String → String

/-- An `analysis` dict with no keys. -/
def defaultAnalysisFields : AnalysisFields :=
  { titleCn := none, authors := none, coreProblem := none,
    coreContribution := none, methodSummary := none, keyResults := none,
    pros := none }

/-- The loop body of lines 196–229 for one non-`None` item: read and parse the
detailed note when its path is set and the file exists, otherwise fall back to
the basic record built from the item's own fields. -/
def noteOfItem (env : ReportEnv) (item : ReportItem) : ParsedNote :=
  let notePath := match item.deep with
    | some d => d.notePath
    | none => ""
  match (if notePath ≠ "" then env.noteFs notePath else none) with
  | some content =>
    let parsed := env.parseNote content
    { parsed with category := item.category.getD "Uncategorized",
                  url := item.url, notePath := notePath }
  | none =>
    let anal := (item.deep.map DeepResult.analysis).getD defaultAnalysisFields
    { title := item.title, titleCn := anal.titleCn.getD "",
      authors := anal.authors.getD [],
      category := item.category.getD "Uncategorized",
      coreProblem := anal.coreProblem.getD "",
      coreContribution := anal.coreContribution.getD [],
      methodSummary := anal.methodSummary.getD "",
      keyResults := anal.keyResults.getD "", pros := anal.pros.getD [],
      url := item.url, notePath := notePath }

/-- `[papers_notes[i:i+batch_size] for i in range(0, len(papers_notes),
batch_size)]` with `batch_size = 10` (line 239). -/
def batches10 : List α → List (List α)
  | [] => []
  | a :: rest => (a :: rest).take 10 :: batches10 (rest.drop 9)
termination_by l => l.length
decreasing_by simp [List.length_drop]; omega

/-- Truncation of a fallback method summary (line 319). -/
def truncMethod (s : String) : String :=
  if 100 < s.length then s.take 100 ++ "..." else s

/-- Lines 305–327: the digest lines for one paper of a batch. -/
def paperLines (env : ReportEnv) (localDir : String) (idx : Nat)
    (paper : ParsedNote) (highlight : Option Highlight) : List String :=
  [toString idx ++ ". **" ++ paper.title ++ "**"]
  ++ (if paper.titleCn ≠ "" then ["   - 中文标题: " ++ paper.titleCn] else [])
  ++ (match highlight with
      | some h =>
        ["   - 方法: " ++ h.keyMethod, "   - 发现: " ++ h.keyFinding]
        ++ (if h.resultHighlight.getD "" ≠ "" then
              ["   - 结果: " ++ h.resultHighlight.getD ""] else [])
      | none =>
        if paper.methodSummary ≠ "" then
          ["   - 方法: " ++ truncMethod paper.methodSummary]
        else [])
  ++ (if paper.notePath ≠ "" ∧ (env.noteFs paper.notePath).isSome then
        ["   - 📄 [详细笔记](" ++ env.relPath paper.notePath localDir ++
         ") | 🔗 [arXiv原文](" ++ paper.url ++ ")"]
      else [])
  ++ [""]

/-- Lines 284–330: the digest lines for one batch. -/
def batchSection (env : ReportEnv) (localDir : String) (i : Nat)
    (batch : List ParsedNote) (summary : BatchSummary) : List String :=
  ["### 4." ++ toString i ++ " 批次 " ++ toString i ++ " (" ++
     toString batch.length ++ " 篇)", ""]
  ++ (if summary.batchSummary ≠ "" then
        ["**整体趋势**: " ++ summary.batchSummary, ""] else [])
  ++ (if summary.technicalTrends ≠ [] then
        ["**技术趋势**: " ++ String.intercalate ", " summary.technicalTrends, ""]
      else [])
  ++ ["**论文要点**:", ""]
  ++ (((batch.zip summary.papersHighlights).enum).map
        (fun p => paperLines env localDir (p.1 + 1) p.2.1 p.2.2)).flatten
  ++ ["---", ""]

/-- One row of the ignored-papers table (lines 357–362): title cut to its
first 55 characters (with an ellipsis when longer), reason defaulted to
`未知原因` and cut to its first 50 characters (with an ellipsis when longer). -/
def mkIgnoredRow (idx : Nat) (item : IgnoredItem) : String :=
  let shortTitle :=
    if 55 < item.title.length then item.title.take 55 ++ "..." else item.title
  let reason₀ := item.reason.getD "未知原因"
  let reason :=
    if 50 < reason₀.length then reason₀.take 50 ++ "..." else reason₀
  "| " ++ toString idx ++ " | [" ++ shortTitle ++ "](" ++ item.url ++ ") | " ++
    reason ++ " |"

/-- The table rows of the ignored-papers section:
`for idx, item in enumerate(ignored[:15], 1)`. -/
def ignoredTableRows (ignored : List IgnoredItem) : List String :=
  ((ignored.take 15).enum).map (fun p => mkIgnoredRow (p.1 + 1) p.2)

/-- Lines 350–363: the ignored-papers section (absent when `ignored` is
empty). -/
def ignoredSectionLines (ignored : List IgnoredItem) : List String :=
  if ignored = [] then []
  else
    ["## 7. 其他论文 (" ++ toString ignored.length ++ " 篇)", "",
     "以下论文因不符合当前研究方向被过滤：", "",
     "| 序号 | 标题 | 过滤原因 |", "|:---:|:---|:---|"]
    ++ ignoredTableRows ignored ++ [""]

/-- The fixed digest file name (lines 187 and 366). -/
def reportFileName : String := "00_Daily_Report_CN.md"

/-- `generate_daily_report` (src/main.py, lines 180–369) as a pure function:
the result is `some (path, lines)` when the digest document is written, and
`none` on the early return of lines 231–233 (no usable paper notes). -/
def generateDailyReport (env : ReportEnv) (interested : List (Option ReportItem))
    (ignored : List IgnoredItem) (date localDir : String) :
    Option (String × List String) :=
  let reportPath := localDir ++ "/" ++ reportFileName
  if interested = [] then
    some (reportPath, ["# AI 科研情报 - " ++ date, "", "今日无感兴趣论文。"])
  else
    let papersNotes := (interested.filterMap id).map (noteOfItem env)
    if papersNotes = [] then none
    else
      let batches := batches10 papersNotes
      let summaries := (batches.enum).map (fun p => env.summarizeBatch p.2 p.1)
      let final := env.finalReport summaries papersNotes.length date
      let md :=
        ["# AI 科研情报 - " ++ date, "", "## 1. 今日概览",
         final.dailyOverview.getD "今日概览生成失败", ""]
        ++ (if final.keyInsights = [] then [] else
              ["## 2. 核心洞察", ""]
              ++ (final.keyInsights.enum).map
                   (fun p => toString (p.1 + 1) ++ ". " ++ p.2)
              ++ [""])
        ++ (if final.directionSummary = [] then [] else
              ["## 3. 方向小结", ""]
              ++ (final.directionSummary.map
                    (fun ds => if ds.2 ≠ "" then ["### " ++ ds.1, ds.2, ""]
                               else [])).flatten)
        ++ ["## 4. 论文详细汇总", ""]
        ++ (((batches.zip summaries).enum).map
              (fun p => batchSection env localDir (p.1 + 1) p.2.1 p.2.2)).flatten
        ++ (if final.notablePapers = [] then [] else
              ["## 5. 值得关注论文", ""]
              ++ ((final.notablePapers.enum).map
                    (fun p => [toString (p.1 + 1) ++ ". **" ++ p.2.1 ++ "**",
                               "   - " ++ p.2.2, ""])).flatten)
        ++ (if final.futureTrends.getD "" ≠ "" then
              ["## 6. 未来趋势展望", final.futureTrends.getD "", ""] else [])
        ++ ignoredSectionLines ignored
      some (reportPath, md)

/-! ## Input constructors and sample data used by the theorems -/

/-- The character list `TYPE[[RECT]]` of one well-formed region tag. -/
def tagChars (ty rect : List Char) : List Char :=
  ty ++ '[' :: '[' :: (rect ++ ']' :: ']' :: [])

/-- The rect group `x1,y1,x2,y2` built from four numeral strings. -/
def rect4 (s₁ s₂ s₃ s₄ : List Char) : List Char :=
  s₁ ++ ',' :: (s₂ ++ ',' :: (s₃ ++ ',' :: s₄))

/-- Translate a match by `k` positions (the effect of scanning the same
suffix at a later absolute offset). -/
def shiftMatch (k : Nat) (m : TagMatch) : TagMatch :=
  ⟨m.type, m.rect, m.start + k, m.stop + k⟩

/-- A 16-element ignored collection whose first title has 60 characters and
whose first reason has 60 characters. -/
def sampleIgnored : List IgnoredItem :=
  ⟨String.mk (List.replicate 60 'A'), some (String.mk (List.replicate 60 'r')),
   "https://arxiv.org/abs/1"⟩ ::
  (List.range 15).map (fun j => ⟨"Paper " ++ toString j, some "off-topic", "u"⟩)

/-- A report environment with trivial collaborators, used for concrete runs. -/
def trivialReportEnv : ReportEnv :=
  { noteFs := fun _ => none,
    parseNote := fun _ =>
      { title := "", titleCn := "", authors := [], category := "",
        coreProblem := "", coreContribution := [], methodSummary := "",
        keyResults := "", pros := [], url := "", notePath := "" },
    summarizeBatch := fun _ _ =>
      { batchSummary := "", technicalTrends := [], papersHighlights := [] },
    finalReport := fun _ _ _ =>
      { dailyOverview := none, keyInsights := [], directionSummary := [],
        notablePapers := [], futureTrends := none },
    relPath := fun p _ => p }

/-! ## Shared lemmas -/

/-- A retry loop with at least one iteration whose call fails on every
attempt returns its fallback value. -/
theorem retryLoop_all_fail {α : Type} (call : Nat → Option α) (fb : α)
    (hfail : ∀ i, call i = none) :
    ∀ n attempt, 1 ≤ n → retryLoop call fb attempt n = some fb := by
  intro n
  induction n with
  | zero => intro _ h; omega
  | succ m ih =>
    intro attempt _
    unfold retryLoop
    rw [hfail attempt]
    cases m with
    | zero => simp
    | succ k =>
      simpa using ih (attempt + 1) (by omega)

/-! ## Claim C3 -/

/-- C3: for every arXiv id and save path such that a file already exists at
the save path with size strictly greater than 10240 bytes, `download_pdf`
returns `True`, performs no network request, and leaves the file system
unchanged; re-running the fetch stage against an already-downloaded,
correctly-sized PDF is therefore idempotent and succeeds. -/
theorem claim_C3_download_skips_existing (env : DownloadEnv)
    (fs : String → Option Nat) (arxivId savePath : String) (maxRetries sz : Nat)
    (hfile : fs savePath = some sz) (hsz : 10240 < sz) :
    downloadPdf env fs arxivId savePath maxRetries = (true, fs, 0) := by
  unfold downloadPdf
  rw [hfile]
  simp [hsz]

/-- Witness for C3 at a concrete file system with a 20000-byte file. -/
theorem claim_C3_witness :
    downloadPdf ⟨fun _ => .timeout⟩
        (fun p => if p = "base/RL/Doe_Foo/Doe_Foo.pdf" then some 20000 else none)
        "2405.00001" "base/RL/Doe_Foo/Doe_Foo.pdf" 3
      = (true,
         (fun p => if p = "base/RL/Doe_Foo/Doe_Foo.pdf" then some 20000 else none),
         0) :=
  claim_C3_download_skips_existing _ _ _ _ 3 20000 (by simp) (by omega)

/-! ## Claim C7 -/

/-- C7: if every underlying LLM call attempt fails, `analyze_paper_content`
does not raise: with its configured retry count at least 1 it returns the
empty analysis struct (empty dict plus empty token-info dict), so downstream
consumers always receive a well-defined value. -/
theorem claim_C7_analyze_content_empty_on_failure (maxRetries maxLength : Nat)
    (ocrResults : List PageResult)
    (call : List Char → Nat → Option (List (String × String) × List (String × String)))
    (hretries : 1 ≤ maxRetries) (hfail : ∀ text i, call text i = none) :
    analyzePaperContent maxRetries maxLength ocrResults call = some ([], []) :=
  retryLoop_all_fail _ _ (fun i => hfail _ i) maxRetries 0 hretries

/-- Witness for C7 with the default retry count 3 and an always-failing call. -/
theorem claim_C7_witness :
    analyzePaperContent 3 12000 [] (fun _ _ => none) = some ([], []) :=
  claim_C7_analyze_content_empty_on_failure 3 12000 [] (fun _ _ => none)
    (by omega) (fun _ _ => rfl)

/-! ## Claim C8 -/

/-- C8: if the underlying LLM call raises on every retry attempt,
`analyze_paper_with_structure` returns `{"interested": False}` instead of
propagating the exception (retry count at least 1, default 3), so a
filter-call failure surfaces as a not-interested classification. -/
theorem claim_C8_filter_fallback_not_interested (maxRetries : Nat)
    (call : Nat → Option FilterAnalysis)
    (hretries : 1 ≤ maxRetries) (hfail : ∀ i, call i = none) :
    analyzePaperWithStructure maxRetries call = some notInterestedFallback ∧
      notInterestedFallback.interested = false :=
  ⟨retryLoop_all_fail _ _ hfail maxRetries 0 hretries, rfl⟩

/-- Witness for C8 with the default retry count 3 and an always-failing call. -/
theorem claim_C8_witness :
    analyzePaperWithStructure 3 (fun _ => none) = some notInterestedFallback ∧
      notInterestedFallback.interested = false :=
  claim_C8_filter_fallback_not_interested 3 (fun _ => none) (by omega)
    (fun _ => rfl)

/-! ## Claim C2 -/

/-- C2: when the relevance filter returns `interested = false`, the pipeline
returns a terminal record with status `ignored` carrying the filter's reason
(defaulted to `不感兴趣`) and the paper's link, and performs no PDF download,
no OCR call, no LLM-analysis call, no archive call, and creates no files or
directories for that paper: the effect trace holds nothing but the filter
call. -/
theorem claim_C2_ignored_frame (env : PipelineEnv) (arxivId : String)
    (meta : PaperMeta) (localDir : String) (skipDeep : Bool) (a : FilterAnalysis)
    (hfa : analyzePaperWithStructure env.filterRetries env.filterCall = some a)
    (hni : a.interested = false) :
    processPaper env arxivId meta localDir skipDeep =
      (some (.ignored meta.title (a.reason.getD "不感兴趣") meta.pdfUrl),
       [.filterCall]) ∧
    statusOf (.ignored meta.title (a.reason.getD "不感兴趣") meta.pdfUrl) = "ignored" ∧
    (∀ p, Effect.downloadCall p ∉ (processPaper env arxivId meta localDir skipDeep).2) ∧
    (∀ i, Effect.ocrCall i ∉ (processPaper env arxivId meta localDir skipDeep).2) ∧
    (∀ i, Effect.llmAnalysisCall i ∉ (processPaper env arxivId meta localDir skipDeep).2) ∧
    (∀ c, Effect.archiveCall c ∉ (processPaper env arxivId meta localDir skipDeep).2) ∧
    (∀ d, Effect.makeDirs d ∉ (processPaper env arxivId meta localDir skipDeep).2) ∧
    (∀ p, Effect.readNote p ∉ (processPaper env arxivId meta localDir skipDeep).2) ∧
    Effect.generateNoteCall ∉ (processPaper env arxivId meta localDir skipDeep).2 := by
  have hmain : processPaper env arxivId meta localDir skipDeep =
      (some (.ignored meta.title (a.reason.getD "不感兴趣") meta.pdfUrl),
       [.filterCall]) := by
    unfold processPaper
    rw [hfa]
    simp [hni]
  refine ⟨hmain, rfl, ?_, ?_, ?_, ?_, ?_, ?_, ?_⟩ <;>
    simp [hmain]

/-- Witness for C2: a concrete environment whose filter call classifies the
paper as not interesting with reason `off-topic`. -/
theorem claim_C2_witness :
    processPaper
        { filterRetries := 1,
          filterCall := fun _ =>
            some { interested := false, reason := some "off-topic",
                   category := none, tags := none, summaryCn := none,
                   tricksCn := none },
          dl := ⟨fun _ => .timeout⟩, fsSizes := fun _ => none,
          ocrOutcome := fun _ => none, llmOutcome := fun _ => none,
          noteFile := fun _ => none, generatedNote := "" }
        "2405.00001" ⟨"Foo", ["Jane Doe"], "abs", "https://arxiv.org/pdf/2405.00001"⟩
        "base/2026-02-05" false =
      (some (.ignored "Foo" "off-topic" "https://arxiv.org/pdf/2405.00001"),
       [.filterCall]) :=
  (claim_C2_ignored_frame
    { filterRetries := 1,
      filterCall := fun _ =>
        some { interested := false, reason := some "off-topic",
               category := none, tags := none, summaryCn := none,
               tricksCn := none },
      dl := ⟨fun _ => .timeout⟩, fsSizes := fun _ => none,
      ocrOutcome := fun _ => none, llmOutcome := fun _ => none,
      noteFile := fun _ => none, generatedNote := "" }
    "2405.00001"
    ⟨"Foo", ["Jane Doe"], "abs", "https://arxiv.org/pdf/2405.00001"⟩
    "base/2026-02-05" false
    { interested := false, reason := some "off-topic", category := none,
      tags := none, summaryCn := none, tricksCn := none }
    rfl rfl).1

/-! ## Claim C1 -/

/-- C1: the gathered results split into three pairwise-disjoint collections by
status — `interested`, `ignored` and `failed` — and a paper whose download
fails after exhausting its retries yields the `failed` terminal record (title,
reason `PDF下载失败`, link), lands in the failed collection and in neither of
the other two, and triggers no OCR, LLM-analysis or archive call. -/
theorem claim_C1_failed_download_bucket (results : List (Option PaperResult))
    (env : PipelineEnv) (arxivId : String) (meta : PaperMeta)
    (localDir : String) (skipDeep : Bool) (a : FilterAnalysis)
    (hfa : analyzePaperWithStructure env.filterRetries env.filterCall = some a)
    (hint : a.interested = true)
    (hdl : ∀ p, (downloadPdf env.dl env.fsSizes arxivId p).1 = false)
    (hauth : meta.authors ≠ []) :
    (∀ r ∈ interestedBucket results,
        r ∉ ignoredBucket results ∧ r ∉ failedBucket results) ∧
    (∀ r ∈ ignoredBucket results, r ∉ failedBucket results) ∧
    (processPaper env arxivId meta localDir skipDeep).1 =
      some (.failed meta.title "PDF下载失败" meta.pdfUrl) ∧
    failedBucket [(processPaper env arxivId meta localDir skipDeep).1] =
      [.failed meta.title "PDF下载失败" meta.pdfUrl] ∧
    interestedBucket [(processPaper env arxivId meta localDir skipDeep).1] = [] ∧
    ignoredBucket [(processPaper env arxivId meta localDir skipDeep).1] = [] ∧
    (∀ i, Effect.ocrCall i ∉ (processPaper env arxivId meta localDir skipDeep).2) ∧
    (∀ i, Effect.llmAnalysisCall i ∉ (processPaper env arxivId meta localDir skipDeep).2) ∧
    (∀ c, Effect.archiveCall c ∉ (processPaper env arxivId meta localDir skipDeep).2) := by
  obtain ⟨f, rest, hm⟩ := List.exists_cons_of_ne_nil hauth
  have hrun : processPaper env arxivId meta localDir skipDeep =
      (some (.failed meta.title "PDF下载失败" meta.pdfUrl),
       [.filterCall,
        .makeDirs (localDir ++ "/" ++ a.category.getD "Uncategorized"),
        .makeDirs (localDir ++ "/" ++ a.category.getD "Uncategorized" ++ "/" ++
          String.mk (sanitizeFilename f.data) ++ "_" ++
          String.mk ((sanitizeFilename meta.title.data).take 40)),
        .downloadCall (localDir ++ "/" ++ a.category.getD "Uncategorized" ++ "/" ++
          String.mk (sanitizeFilename f.data) ++ "_" ++
          String.mk ((sanitizeFilename meta.title.data).take 40) ++ "/" ++
          String.mk (sanitizeFilename f.data) ++ "_" ++
          String.mk ((sanitizeFilename meta.title.data).take 40) ++ ".pdf")]) := by
    unfold processPaper
    rw [hfa]
    simp only [hint, hm, hdl]
    simp
  refine ⟨?_, ?_, ?_, ?_, ?_, ?_, ?_, ?_, ?_⟩
  · intro r hr
    simp only [interestedBucket, ignoredBucket, failedBucket, List.mem_filter,
      decide_eq_true_eq] at hr ⊢
    rw [hr.2]
    simp
  · intro r hr
    simp only [ignoredBucket, failedBucket, List.mem_filter,
      decide_eq_true_eq] at hr ⊢
    rw [hr.2]
    simp
  · rw [hrun]
  · rw [hrun]; rfl
  · rw [hrun]; rfl
  · rw [hrun]; rfl
  · intro i; simp [hrun]
  · intro i; simp [hrun]
  · intro c; simp [hrun]

/-- Witness for C1: a concrete environment whose filter accepts the paper and
whose network times out on every download attempt. -/
theorem claim_C1_witness :
    (∀ r ∈ interestedBucket ([] : List (Option PaperResult)),
        r ∉ ignoredBucket [] ∧ r ∉ failedBucket []) ∧
    (∀ r ∈ ignoredBucket ([] : List (Option PaperResult)), r ∉ failedBucket []) ∧
    (processPaper
        { filterRetries := 1,
          filterCall := fun _ =>
            some { interested := true, reason := some "matches RL",
                   category := some "RL", tags := some ["rl"],
                   summaryCn := some "s", tricksCn := some "t" },
          dl := ⟨fun _ => .timeout⟩, fsSizes := fun _ => none,
          ocrOutcome := fun _ => none, llmOutcome := fun _ => none,
          noteFile := fun _ => none, generatedNote := "" }
        "2405.00001" ⟨"Foo", ["Jane Doe"], "abs", "https://arxiv.org/pdf/2405.00001"⟩
        "base/2026-02-05" false).1 =
      some (.failed "Foo" "PDF下载失败" "https://arxiv.org/pdf/2405.00001") ∧
    failedBucket [(processPaper
        { filterRetries := 1,
          filterCall := fun _ =>
            some { interested := true, reason := some "matches RL",
                   category := some "RL", tags := some ["rl"],
                   summaryCn := some "s", tricksCn := some "t" },
          dl := ⟨fun _ => .timeout⟩, fsSizes := fun _ => none,
          ocrOutcome := fun _ => none, llmOutcome := fun _ => none,
          noteFile := fun _ => none, generatedNote := "" }
        "2405.00001" ⟨"Foo", ["Jane Doe"], "abs", "https://arxiv.org/pdf/2405.00001"⟩
        "base/2026-02-05" false).1] =
      [.failed "Foo" "PDF下载失败" "https://arxiv.org/pdf/2405.00001"] ∧
    interestedBucket [(processPaper
        { filterRetries := 1,
          filterCall := fun _ =>
            some { interested := true, reason := some "matches RL",
                   category := some "RL", tags := some ["rl"],
                   summaryCn := some "s", tricksCn := some "t" },
          dl := ⟨fun _ => .timeout⟩, fsSizes := fun _ => none,
          ocrOutcome := fun _ => none, llmOutcome := fun _ => none,
          noteFile := fun _ => none, generatedNote := "" }
        "2405.00001" ⟨"Foo", ["Jane Doe"], "abs", "https://arxiv.org/pdf/2405.00001"⟩
        "base/2026-02-05" false).1] = [] ∧
    ignoredBucket [(processPaper
        { filterRetries := 1,
          filterCall := fun _ =>
            some { interested := true, reason := some "matches RL",
                   category := some "RL", tags := some ["rl"],
                   summaryCn := some "s", tricksCn := some "t" },
          dl := ⟨fun _ => .timeout⟩, fsSizes := fun _ => none,
          ocrOutcome := fun _ => none, llmOutcome := fun _ => none,
          noteFile := fun _ => none, generatedNote := "" }
        "2405.00001" ⟨"Foo", ["Jane Doe"], "abs", "https://arxiv.org/pdf/2405.00001"⟩
        "base/2026-02-05" false).1] = [] ∧
    (∀ i, Effect.ocrCall i ∉ (processPaper
        { filterRetries := 1,
          filterCall := fun _ =>
            some { interested := true, reason := some "matches RL",
                   category := some "RL", tags := some ["rl"],
                   summaryCn := some "s", tricksCn := some "t" },
          dl := ⟨fun _ => .timeout⟩, fsSizes := fun _ => none,
          ocrOutcome := fun _ => none, llmOutcome := fun _ => none,
          noteFile := fun _ => none, generatedNote := "" }
        "2405.00001" ⟨"Foo", ["Jane Doe"], "abs", "https://arxiv.org/pdf/2405.00001"⟩
        "base/2026-02-05" false).2) ∧
    (∀ i, Effect.llmAnalysisCall i ∉ (processPaper
        { filterRetries := 1,
          filterCall := fun _ =>
            some { interested := true, reason := some "matches RL",
                   category := some "RL", tags := some ["rl"],
                   summaryCn := some "s", tricksCn := some "t" },
          dl := ⟨fun _ => .timeout⟩, fsSizes := fun _ => none,
          ocrOutcome := fun _ => none, llmOutcome := fun _ => none,
          noteFile := fun _ => none, generatedNote := "" }
        "2405.00001" ⟨"Foo", ["Jane Doe"], "abs", "https://arxiv.org/pdf/2405.00001"⟩
        "base/2026-02-05" false).2) ∧
    (∀ c, Effect.archiveCall c ∉ (processPaper
        { filterRetries := 1,
          filterCall := fun _ =>
            some { interested := true, reason := some "matches RL",
                   category := some "RL", tags := some ["rl"],
                   summaryCn := some "s", tricksCn := some "t" },
          dl := ⟨fun _ => .timeout⟩, fsSizes := fun _ => none,
          ocrOutcome := fun _ => none, llmOutcome := fun _ => none,
          noteFile := fun _ => none, generatedNote := "" }
        "2405.00001" ⟨"Foo", ["Jane Doe"], "abs", "https://arxiv.org/pdf/2405.00001"⟩
        "base/2026-02-05" false).2) :=
  claim_C1_failed_download_bucket [] _ "2405.00001"
    ⟨"Foo", ["Jane Doe"], "abs", "https://arxiv.org/pdf/2405.00001"⟩
    "base/2026-02-05" false
    { interested := true, reason := some "matches RL", category := some "RL",
      tags := some ["rl"], summaryCn := some "s", tricksCn := some "t" }
    rfl rfl (fun _ => rfl) (by simp)

/-! ## Claim C10 -/

/-- C10: the ignored-papers table of the digest lists only the first 15
ignored papers — each row carrying the title cut to its first 55 characters
(with an ellipsis when longer) and the reason cut to its first 50 characters
(with an ellipsis when longer) — while the section heading reports the full
ignored count. -/
theorem claim_C10_ignored_table (ig : List IgnoredItem) (h : ig ≠ []) :
    (ignoredSectionLines ig).headD "" =
      "## 7. 其他论文 (" ++ toString ig.length ++ " 篇)" ∧
    (ignoredTableRows ig).length = min ig.length 15 ∧
    (ignoredTableRows ig).length ≤ 15 ∧
    (∀ i, i < (ignoredTableRows ig).length →
      (ignoredTableRows ig).getD i "" =
        (let item := ig.getD i ⟨"", none, ""⟩
         let shortTitle :=
           if 55 < item.title.length then item.title.take 55 ++ "..."
           else item.title
         let reason₀ := item.reason.getD "未知原因"
         let reason :=
           if 50 < reason₀.length then reason₀.take 50 ++ "..." else reason₀
         "| " ++ toString (i + 1) ++ " | [" ++ shortTitle ++ "](" ++ item.url ++
           ") | " ++ reason ++ " |")) := by
  have hlen : (ignoredTableRows ig).length = min ig.length 15 := by
    simp only [ignoredTableRows, List.length_map, List.enum_length,
      List.length_take]
    omega
  refine ⟨?_, hlen, by omega, ?_⟩
  · simp [ignoredSectionLines, h]
  · intro i hi
    have h15 : i < 15 := by rw [hlen] at hi; omega
    have hig : i < ig.length := by rw [hlen] at hi; omega
    simp only [ignoredTableRows, List.getD_eq_getElem?_getD, List.getElem?_map,
      List.getElem?_enum, List.getElem?_take, if_pos h15,
      List.getElem?_eq_getElem hig]
    simp [mkIgnoredRow]

/-- Witness for C10 on a 16-element ignored collection exercising both
truncations. -/
theorem claim_C10_witness :
    (ignoredSectionLines sampleIgnored).headD "" =
      "## 7. 其他论文 (" ++ toString sampleIgnored.length ++ " 篇)" ∧
    (ignoredTableRows sampleIgnored).length = min sampleIgnored.length 15 ∧
    (ignoredTableRows sampleIgnored).length ≤ 15 ∧
    (∀ i, i < (ignoredTableRows sampleIgnored).length →
      (ignoredTableRows sampleIgnored).getD i "" =
        (let item := sampleIgnored.getD i ⟨"", none, ""⟩
         let shortTitle :=
           if 55 < item.title.length then item.title.take 55 ++ "..."
           else item.title
         let reason₀ := item.reason.getD "未知原因"
         let reason :=
           if 50 < reason₀.length then reason₀.take 50 ++ "..." else reason₀
         "| " ++ toString (i + 1) ++ " | [" ++ shortTitle ++ "](" ++ item.url ++
           ") | " ++ reason ++ " |")) :=
  claim_C10_ignored_table sampleIgnored (by simp [sampleIgnored])

/-! ## Claim C9 -/

/-- Counterexample to C9 as stated: for the combination
`interested = [None]`, `ignored = []` — a nonempty interested collection all
of whose entries are `None` — `generate_daily_report` takes the early return
of lines 231–233 and writes no digest document at all. -/
theorem claim_C9_counterexample :
    generateDailyReport trivialReportEnv [none] [] "2026-02-05"
      "base/2026-02-05" = none := rfl

/-- C9 (amended): for every combination of interested and ignored collections
in which every interested entry is non-`None` — as holds for the collections
`main_async` builds at line 458 — `generate_daily_report` writes the digest
document `00_Daily_Report_CN.md` under the run directory, and when the
interested collection is empty the document is the minimal nothing-found
digest. -/
theorem claim_C9_report_written (env : ReportEnv)
    (interested : List (Option ReportItem)) (ignored : List IgnoredItem)
    (date localDir : String)
    (hsome : ∀ x ∈ interested, Option.isSome x) :
    ∃ doc, generateDailyReport env interested ignored date localDir =
        some (localDir ++ "/" ++ reportFileName, doc) ∧
      (interested = [] →
        doc = ["# AI 科研情报 - " ++ date, "", "今日无感兴趣论文。"]) := by
  match interested, hsome with
  | [], _ =>
    exact ⟨_, rfl, fun _ => rfl⟩
  | some y :: rest, hsome =>
    have hne : ((some y :: rest).filterMap id).map (noteOfItem env) ≠ [] := by
      simp
    have hshape : ∃ doc,
        generateDailyReport env (some y :: rest) ignored date localDir =
          some (localDir ++ "/" ++ reportFileName, doc) := by
      unfold generateDailyReport
      simp only [if_neg (show ¬(some y :: rest = []) by simp), if_neg hne]
      exact ⟨_, rfl⟩
    obtain ⟨doc, hdoc⟩ := hshape
    exact ⟨doc, hdoc, by simp⟩
  | none :: rest, hsome =>
    exact absurd (hsome none (by simp)) (by simp)

/-- Witness for C9 on a one-element interested collection and an empty
ignored collection. -/
theorem claim_C9_witness :
    ∃ doc, generateDailyReport trivialReportEnv
        [some ⟨"Foo", "https://arxiv.org/abs/1", some "RL", none⟩] []
        "2026-02-05" "base/2026-02-05" =
        some ("base/2026-02-05" ++ "/" ++ reportFileName, doc) ∧
      ([some (⟨"Foo", "https://arxiv.org/abs/1", some "RL", none⟩ : ReportItem)] = ([] : List (Option ReportItem)) →
        doc = ["# AI 科研情报 - " ++ "2026-02-05", "", "今日无感兴趣论文。"]) :=
  claim_C9_report_written trivialReportEnv
    [some ⟨"Foo", "https://arxiv.org/abs/1", some "RL", none⟩] []
    "2026-02-05" "base/2026-02-05" (by simp)

/-! ## Claim C5 -/

/-- C5: whatever completion order the concurrent per-page OCR pool produces
(any permutation of the per-task outputs), the page-result list handed to the
analyze stage is strictly increasing by page number with no duplicates, and
every page number is the 1-based position of a successfully processed input
image. -/
theorem claim_C5_ocr_page_order (n : Nat) (outcome : Nat → Option PageData)
    (completed : List (Option PageResult))
    (hperm : completed.Perm (ocrTaskOutputs outcome n)) :
    List.Pairwise (· < ·) ((collectOcrResults completed).map PageResult.page) ∧
    ((collectOcrResults completed).map PageResult.page).Nodup ∧
    (∀ p ∈ (collectOcrResults completed).map PageResult.page,
       ∃ i, i < n ∧ (outcome i).isSome ∧ p = i + 1) := by
  have hperm2 : (completed.filterMap id).Perm
      ((ocrTaskOutputs outcome n).filterMap id) := hperm.filterMap id
  have hbase : (ocrTaskOutputs outcome n).filterMap id =
      (List.range n).filterMap (fun i => processSinglePage (outcome i) i) := by
    simp [ocrTaskOutputs, List.filterMap_map, Function.comp]
  have hpages : (((List.range n).filterMap
        (fun i => processSinglePage (outcome i) i)).map PageResult.page) =
      (List.range n).filterMap (fun i => (outcome i).map (fun _ => i + 1)) := by
    simp only [List.map_filterMap, processSinglePage, Option.map_map]
    congr 1
  have hpairBase : List.Pairwise (· < ·)
      ((List.range n).filterMap (fun i => (outcome i).map (fun _ => i + 1))) := by
    refine List.Pairwise.filterMap _ ?_ (List.pairwise_lt_range n)
    intro a a' hlt b hb b' hb'
    rcases Option.map_eq_some'.mp hb with ⟨x, _, hx⟩
    rcases Option.map_eq_some'.mp hb' with ⟨x', _, hx'⟩
    omega
  have hnodupBase : ((List.range n).filterMap
      (fun i => (outcome i).map (fun _ => i + 1))).Nodup :=
    hpairBase.imp (fun h => Nat.ne_of_lt h)
  have hpermSorted : (collectOcrResults completed).Perm
      ((List.range n).filterMap (fun i => processSinglePage (outcome i) i)) :=
    (List.mergeSort_perm _ _).trans (hperm2.trans (by rw [hbase]))
  have hpermPages : ((collectOcrResults completed).map PageResult.page).Perm
      ((List.range n).filterMap (fun i => (outcome i).map (fun _ => i + 1))) := by
    have := hpermSorted.map PageResult.page
    rwa [hpages] at this
  have hnodup : ((collectOcrResults completed).map PageResult.page).Nodup :=
    hpermPages.nodup_iff.mpr hnodupBase
  have hsorted : List.Pairwise (fun a b : PageResult => pageLe a b = true)
      ((completed.filterMap id).mergeSort pageLe) := by
    refine List.sorted_mergeSort ?_ ?_ _
    · intro a b c hab hbc
      simp only [pageLe, decide_eq_true_eq] at *
      omega
    · intro a b
      simp only [pageLe, Bool.or_eq_true, decide_eq_true_eq]
      omega
  have hle : List.Pairwise (· ≤ ·)
      ((collectOcrResults completed).map PageResult.page) := by
    refine List.Pairwise.map _ ?_ hsorted
    intro a b h
    simpa [pageLe] using h
  refine ⟨?_, hnodup, ?_⟩
  · exact (hle.and hnodup).imp (fun h => lt_of_le_of_ne h.1 h.2)
  · intro p hp
    have hp2 : p ∈ (List.range n).filterMap
        (fun i => (outcome i).map (fun _ => i + 1)) := hpermPages.mem_iff.mp hp
    rcases List.mem_filterMap.mp hp2 with ⟨i, hi, hmap⟩
    rcases Option.map_eq_some'.mp hmap with ⟨x, hx, hx'⟩
    exact ⟨i, List.mem_range.mp hi, by simp [hx], hx'.symm⟩

/-- Witness for C5: three pages, the middle one failing, the survivors
completing out of order. -/
theorem claim_C5_witness :
    List.Pairwise (· < ·) ((collectOcrResults
      [some ⟨3, [], [], []⟩, none, some ⟨1, [], [], []⟩]).map PageResult.page) ∧
    ((collectOcrResults
      [some ⟨3, [], [], []⟩, none, some ⟨1, [], [], []⟩]).map PageResult.page).Nodup ∧
    (∀ p ∈ (collectOcrResults
        [some ⟨3, [], [], []⟩, none, some ⟨1, [], [], []⟩]).map PageResult.page,
       ∃ i, i < 3 ∧ ((fun j => if j = 1 then (none : Option PageData)
           else some ⟨[], [], []⟩) i).isSome ∧ p = i + 1) :=
  claim_C5_ocr_page_order 3
    (fun j => if j = 1 then none else some ⟨[], [], []⟩)
    [some ⟨3, [], [], []⟩, none, some ⟨1, [], [], []⟩]
    (by decide)

/-! ## Claim C6 -/

/-- A successful `int(x)` is nonnegative: the rect group's character class
contains no sign, so every parsed piece is a plain digit run. -/
theorem pyInt_nonneg {s : List Char} {v : Int} (h : pyInt? s = some v) :
    0 ≤ v := by
  unfold pyInt? at h
  split at h
  · cases h
    exact Int.natCast_nonneg _
  · cases h

/-- Every value in a successfully parsed comprehension comes from one piece. -/
theorem parseInts_mem : ∀ {ps : List (List Char)} {vs : List Int},
    parseInts ps = some vs → ∀ v ∈ vs, ∃ p ∈ ps, pyInt? p = some v := by
  intro ps
  induction ps with
  | nil =>
    intro vs h v hv
    cases h
    cases hv
  | cons p rest ih =>
    intro vs h v hv
    unfold parseInts at h
    cases hp : pyInt? p with
    | none => rw [hp] at h; cases h
    | some w =>
      rw [hp] at h
      cases hrest : parseInts rest with
      | none => rw [hrest] at h; cases h
      | some ws =>
        rw [hrest] at h
        cases h
        rcases List.mem_cons.mp hv with hv | hv
        · exact ⟨p, List.mem_cons_self .., by rw [hp, hv]⟩
        · rcases ih hrest v hv with ⟨q, hq, hq'⟩
          exact ⟨q, List.mem_cons_of_mem _ hq, hq'⟩

/-- Every value of a successfully parsed rect group is nonnegative. -/
theorem parseRect_nonneg {rect : List Char} {bbox : List Int}
    (h : parseRect rect = some bbox) : ∀ v ∈ bbox, 0 ≤ v := by
  intro v hv
  rcases parseInts_mem h v hv with ⟨p, _, hp⟩
  exact pyInt_nonneg hp

/-- Every item produced from a match list has a bbox obtained from a
successful rect parse. -/
theorem itemsOfMatches_bbox : ∀ {content : List Char} {ms : List TagMatch}
    {item : OcrItem}, item ∈ itemsOfMatches content ms →
    ∃ m ∈ ms, parseRect m.rect = some item.bbox := by
  intro content ms
  induction ms with
  | nil => intro item h; cases h
  | cons m rest ih =>
    intro item h
    unfold itemsOfMatches at h
    cases hp : parseRect m.rect with
    | none =>
      rw [hp] at h
      rcases ih h with ⟨m', hm', hp'⟩
      exact ⟨m', List.mem_cons_of_mem _ hm', hp'⟩
    | some bbox =>
      rw [hp] at h
      rcases List.mem_cons.mp h with h | h
      · exact ⟨m, List.mem_cons_self .., by rw [hp, h]⟩
      · rcases ih h with ⟨m', hm', hp'⟩
        exact ⟨m', List.mem_cons_of_mem _ hm', hp'⟩

/-- Counterexample to C6 as stated: `parse_ocr_response` validates neither the
arity nor the range of a bounding box — `T[[1,2,3]]x` yields a 3-element bbox
and `T[[9999,0,0,0]]x` yields a coordinate outside 0–1000. -/
theorem claim_C6_counterexample :
    parseOcrResponse "T[[1,2,3]]x".data =
      [⟨"T".data, [1, 2, 3], "x".data⟩] ∧
    ([1, 2, 3] : List Int).length ≠ 4 ∧
    parseOcrResponse "T[[9999,0,0,0]]x".data =
      [⟨"T".data, [9999, 0, 0, 0], "x".data⟩] ∧
    ¬ (9999 : Int) ≤ 1000 := by
  refine ⟨by decide, by decide, by decide, by decide⟩

/-- C6 (amended): for every input string, every region returned by
`parse_ocr_response` has a bounding box that is a list of nonnegative
integers, the values parsed from the tag's bracket group; the parser enforces
neither a length of 4 nor the 0–1000 range. -/
theorem claim_C6_bbox_nonneg (content : List Char) (item : OcrItem)
    (hitem : item ∈ parseOcrResponse content) : ∀ v ∈ item.bbox, 0 ≤ v := by
  rcases itemsOfMatches_bbox hitem with ⟨m, _, hp⟩
  exact parseRect_nonneg hp

/-- Witness for C6 on a concrete OCR response, at the first bbox value of the
region parsed from `title[[12,34,56,78]]Hello`. -/
theorem claim_C6_witness : (0 : Int) ≤ 12 :=
  claim_C6_bbox_nonneg "title[[12,34,56,78]]Hello".data
    ⟨"title".data, [12, 34, 56, 78], "Hello".data⟩ (by decide) 12 (by decide)

/-! ## Claim C4 — scanner machinery -/

theorem shiftMatch_zero (m : TagMatch) : shiftMatch 0 m = m := by
  cases m
  simp [shiftMatch]

theorem shiftMatch_shiftMatch (p q : Nat) (m : TagMatch) :
    shiftMatch p (shiftMatch q m) = shiftMatch (q + p) m := by
  cases m
  simp only [shiftMatch, TagMatch.mk.injEq, true_and]
  omega

/-- Unfolding equation of the scanner at an unskipped position. -/
theorem scanTags_cons_zero (c : Char) (rest : List Char) (pos : Nat) :
    scanTags (c :: rest) 0 pos =
      match tryTagMatch (c :: rest) with
      | some (ty, rect, len) =>
        ⟨ty, rect, pos, pos + len⟩ :: scanTags rest (len - 1) (pos + 1)
      | none => scanTags rest 0 (pos + 1) := rfl

/-- Scanning at absolute offset `p` produces the matches of scanning at
offset 0, translated by `p`. -/
theorem scanTags_shift : ∀ (s : List Char) (skip p : Nat),
    scanTags s skip p = (scanTags s skip 0).map (shiftMatch p) := by
  intro s
  induction s with
  | nil => intro skip p; simp [scanTags]
  | cons c rest ih =>
    intro skip p
    cases skip with
    | succ k =>
      show scanTags rest k (p + 1) = (scanTags rest k 1).map (shiftMatch p)
      rw [ih k (p + 1), ih k 1, List.map_map]
      refine List.map_congr_left ?_
      intro m _
      rw [Function.comp_apply, shiftMatch_shiftMatch]
      congr 1
      omega
    | zero =>
      rw [scanTags_cons_zero, scanTags_cons_zero]
      cases h : tryTagMatch (c :: rest) with
      | none =>
        show scanTags rest 0 (p + 1) = (scanTags rest 0 1).map (shiftMatch p)
        rw [ih 0 (p + 1), ih 0 1, List.map_map]
        refine List.map_congr_left ?_
        intro m _
        rw [Function.comp_apply, shiftMatch_shiftMatch]
        congr 1
        omega
      | some x =>
        obtain ⟨ty, rect, len⟩ := x
        show (⟨ty, rect, p, p + len⟩ : TagMatch) :: scanTags rest (len - 1) (p + 1) =
          ((⟨ty, rect, 0, 0 + len⟩ : TagMatch) :: scanTags rest (len - 1) 1).map
            (shiftMatch p)
        rw [List.map_cons, ih (len - 1) (p + 1), ih (len - 1) 1, List.map_map]
        congr 1
        · simp only [shiftMatch, TagMatch.mk.injEq, true_and]
          omega
        · refine List.map_congr_left ?_
          intro m _
          rw [Function.comp_apply, shiftMatch_shiftMatch]
          congr 1
          omega

/-- Skipping `k` positions is dropping `k` characters and shifting. -/
theorem scanTags_skip : ∀ (k : Nat) (s : List Char) (p : Nat),
    scanTags s k p = scanTags (s.drop k) 0 (p + k) := by
  intro k
  induction k with
  | zero => intro s p; simp
  | succ n ih =>
    intro s p
    cases s with
    | nil => simp [scanTags]
    | cons c rest =>
      show scanTags rest n (p + 1) = _
      rw [ih rest (p + 1), List.drop_succ_cons]
      congr 1
      omega

theorem takeWhile_append_all {p : Char → Bool} {l l₂ : List Char}
    (h : ∀ c ∈ l, p c = true) :
    (l ++ l₂).takeWhile p = l ++ l₂.takeWhile p := by
  have hl : l.takeWhile p = l := List.takeWhile_eq_self_iff.mpr h
  rw [List.takeWhile_append, if_pos (by rw [hl])]

theorem dropWhile_head_false {p : Char → Bool} : ∀ {l : List Char} {c : Char}
    {t : List Char}, l.dropWhile p = c :: t → p c = false := by
  intro l
  induction l with
  | nil => intro c t h; cases h
  | cons a l ih =>
    intro c t h
    by_cases ha : p a = true
    · rw [List.dropWhile_cons_of_pos ha] at h
      exact ih h
    · rw [List.dropWhile_cons_of_neg ha] at h
      cases h
      simpa using ha

theorem tagChars_length (ty rect : List Char) :
    (tagChars ty rect).length = ty.length + rect.length + 4 := by
  simp [tagChars]
  omega

/-- The tag pattern matches at the head of a well-formed tag, consuming
exactly the tag. -/
theorem tryTagMatch_tag (ty rect s : List Char)
    (hty : ty ≠ []) (htyw : ∀ c ∈ ty, wordChar c = true)
    (hr : rect ≠ []) (hrw : ∀ c ∈ rect, rectChar c = true) :
    tryTagMatch (tagChars ty rect ++ s) =
      some (ty, rect, ty.length + rect.length + 4) := by
  have hA : tagChars ty rect ++ s =
      ty ++ ('[' :: '[' :: (rect ++ (']' :: ']' :: s))) := by
    simp [tagChars]
  have h1 : (ty ++ ('[' :: '[' :: (rect ++ (']' :: ']' :: s)))).takeWhile wordChar
      = ty := by
    rw [takeWhile_append_all htyw, List.takeWhile_cons_of_neg (by decide)]
    simp
  have h2 : (ty ++ ('[' :: '[' :: (rect ++ (']' :: ']' :: s)))).drop ty.length
      = '[' :: '[' :: (rect ++ (']' :: ']' :: s)) := List.drop_left ty _
  have h3 : (rect ++ (']' :: ']' :: s)).takeWhile rectChar = rect := by
    rw [takeWhile_append_all hrw, List.takeWhile_cons_of_neg (by decide)]
    simp
  have h4 : (rect ++ (']' :: ']' :: s)).drop rect.length =
      ']' :: ']' :: s := List.drop_left rect _
  rw [hA]
  unfold tryTagMatch
  simp only [h1, h2, h3, h4, if_neg hty, if_neg hr, List.drop_succ_cons,
    List.drop_zero, List.take_succ_cons, List.take_zero]
  simp

/-- Scanning a well-formed tag followed by anything: the tag is the first
match, and the scan continues on the remainder. -/
theorem findTagMatches_tag_cons (ty rect s : List Char)
    (hty : ty ≠ []) (htyw : ∀ c ∈ ty, wordChar c = true)
    (hr : rect ≠ []) (hrw : ∀ c ∈ rect, rectChar c = true) :
    findTagMatches (tagChars ty rect ++ s) =
      ⟨ty, rect, 0, ty.length + rect.length + 4⟩ ::
        (findTagMatches s).map (shiftMatch (ty.length + rect.length + 4)) := by
  obtain ⟨t, ty', hty'⟩ := List.exists_cons_of_ne_nil hty
  have htry := tryTagMatch_tag ty rect s hty htyw hr hrw
  have hcons : tagChars ty rect ++ s =
      t :: (ty' ++ ('[' :: '[' :: (rect ++ (']' :: ']' :: s)))) := by
    simp [tagChars, hty']
  have hdrop : (ty' ++ ('[' :: '[' :: (rect ++ (']' :: ']' :: s)))).drop
      (ty.length + rect.length + 4 - 1) = s := by
    have : ty' ++ ('[' :: '[' :: (rect ++ (']' :: ']' :: s))) =
        (ty' ++ ('[' :: '[' :: (rect ++ [']', ']']))) ++ s := by
      simp
    rw [this]
    have hlen : (ty' ++ ('[' :: '[' :: (rect ++ [']', ']']))).length =
        ty.length + rect.length + 4 - 1 := by
      simp [hty']
      omega
    rw [← hlen, List.drop_left]
  unfold findTagMatches
  rw [hcons]
  rw [scanTags_cons_zero]
  rw [← hcons, htry]
  show (⟨ty, rect, 0, 0 + (ty.length + rect.length + 4)⟩ : TagMatch) ::
      scanTags (ty' ++ ('[' :: '[' :: (rect ++ (']' :: ']' :: s))))
        (ty.length + rect.length + 4 - 1) 1 = _
  rw [scanTags_skip, hdrop]
  have harith : 1 + (ty.length + rect.length + 4 - 1) =
      ty.length + rect.length + 4 := by
    omega
  rw [harith, scanTags_shift]
  congr 1
  simp

/-! ## Claim C4 — rect parsing on canonical numerals -/

theorem space_not_digit {c : Char} (h : pySpace c = true) : c.isDigit = false := by
  simp only [pySpace, Bool.or_eq_true, decide_eq_true_eq] at h
  rcases h with ((((h | h) | h) | h) | h) | h <;> subst h <;> decide

theorem split_not_digit {c : Char} (h : splitChar c = true) : c.isDigit = false := by
  simp only [splitChar, Bool.or_eq_true, decide_eq_true_eq] at h
  rcases h with h | h
  · subst h; decide
  · exact space_not_digit h

theorem digit_not_split {c : Char} (h : c.isDigit = true) : splitChar c = false := by
  cases hs : splitChar c with
  | false => rfl
  | true => rw [split_not_digit hs] at h; cases h

theorem digit_not_space {c : Char} (h : c.isDigit = true) : pySpace c = false := by
  cases hs : pySpace c with
  | false => rfl
  | true => rw [space_not_digit hs] at h; cases h

theorem digit_rectChar {c : Char} (h : c.isDigit = true) : rectChar c = true := by
  simp [rectChar, h]

theorem dropWhile_eq_self_of_false {p : Char → Bool} {s : List Char}
    (h : ∀ c ∈ s, p c = false) : s.dropWhile p = s := by
  cases s with
  | nil => rfl
  | cons a t =>
    exact List.dropWhile_cons_of_neg (by simp [h a (by simp)])

theorem pyStrip_eq_self {s : List Char} (h : ∀ c ∈ s, pySpace c = false) :
    pyStrip s = s := by
  unfold pyStrip
  rw [dropWhile_eq_self_of_false h,
    dropWhile_eq_self_of_false (fun c hc => h c (List.mem_reverse.mp hc)),
    List.reverse_reverse]

theorem runsAux_cons_nonsplit (c : Char) (rest acc : List Char)
    (hc : splitChar c = false) :
    runsAux (c :: rest) acc = runsAux rest (c :: acc) := by
  simp [runsAux, hc]

theorem runsAux_split_cons (c : Char) (hc : splitChar c = true)
    (rest acc : List Char) (hacc : acc ≠ []) :
    runsAux (c :: rest) acc = acc.reverse :: runsAux rest [] := by
  simp [runsAux, hc, hacc]

theorem runsAux_nil_ne (acc : List Char) (hacc : acc ≠ []) :
    runsAux [] acc = [acc.reverse] := by
  simp [runsAux, hacc]

theorem runsAux_nonsplit : ∀ (d : List Char), (∀ c ∈ d, splitChar c = false) →
    ∀ (rest acc : List Char),
      runsAux (d ++ rest) acc = runsAux rest (d.reverse ++ acc) := by
  intro d
  induction d with
  | nil => intro _ rest acc; simp
  | cons c d' ih =>
    intro h rest acc
    rw [List.cons_append, runsAux_cons_nonsplit c _ _ (h c (by simp)),
      ih (fun x hx => h x (by simp [hx])) rest (c :: acc)]
    simp

theorem runsAux_all_nonsplit (d : List Char) (hd : d ≠ [])
    (hall : ∀ c ∈ d, splitChar c = false) : runsAux d [] = [d] := by
  have h := runsAux_nonsplit d hall [] []
  rw [List.append_nil] at h
  rw [h, runsAux_nil_ne _ (by simp [hd])]
  simp

theorem splitPieces_rect4 (s₁ s₂ s₃ s₄ : List Char)
    (h : ∀ s ∈ [s₁, s₂, s₃, s₄], s ≠ [] ∧ ∀ c ∈ s, c.isDigit = true) :
    splitPieces (rect4 s₁ s₂ s₃ s₄) = [s₁, s₂, s₃, s₄] := by
  have hn : ∀ s ∈ [s₁, s₂, s₃, s₄], ∀ c ∈ s, splitChar c = false :=
    fun s hs c hc => digit_not_split ((h s hs).2 c hc)
  have h1 := h s₁ (by simp)
  have h2 := h s₂ (by simp)
  have h3 := h s₃ (by simp)
  have h4 := h s₄ (by simp)
  unfold splitPieces rect4
  rw [runsAux_nonsplit s₁ (hn s₁ (by simp)) _ [],
    runsAux_split_cons ',' (by decide) _ _ (by simp [h1.1]),
    runsAux_nonsplit s₂ (hn s₂ (by simp)) _ [],
    runsAux_split_cons ',' (by decide) _ _ (by simp [h2.1]),
    runsAux_nonsplit s₃ (hn s₃ (by simp)) _ [],
    runsAux_split_cons ',' (by decide) _ _ (by simp [h3.1]),
    runsAux_all_nonsplit s₄ h4.1 (hn s₄ (by simp))]
  simp

theorem pyInt_digits {s : List Char} (hne : s ≠ [])
    (hd : ∀ c ∈ s, c.isDigit = true) : pyInt? s = some ((digitsVal s : Int)) := by
  unfold pyInt?
  rw [if_pos ⟨hne, List.all_eq_true.mpr hd⟩]

theorem parseRect_rect4 (s₁ s₂ s₃ s₄ : List Char)
    (h : ∀ s ∈ [s₁, s₂, s₃, s₄], s ≠ [] ∧ ∀ c ∈ s, c.isDigit = true) :
    parseRect (rect4 s₁ s₂ s₃ s₄) =
      some [(digitsVal s₁ : Int), digitsVal s₂, digitsVal s₃, digitsVal s₄] := by
  have hstrip : pyStrip (rect4 s₁ s₂ s₃ s₄) = rect4 s₁ s₂ s₃ s₄ := by
    apply pyStrip_eq_self
    intro c hc
    simp only [rect4, List.mem_append, List.mem_cons] at hc
    rcases hc with hc | hc | hc | hc | hc | hc | hc
    · exact digit_not_space ((h s₁ (by simp)).2 c hc)
    · subst hc; decide
    · exact digit_not_space ((h s₂ (by simp)).2 c hc)
    · subst hc; decide
    · exact digit_not_space ((h s₃ (by simp)).2 c hc)
    · subst hc; decide
    · exact digit_not_space ((h s₄ (by simp)).2 c hc)
  have p1 := pyInt_digits (h s₁ (by simp)).1 (h s₁ (by simp)).2
  have p2 := pyInt_digits (h s₂ (by simp)).1 (h s₂ (by simp)).2
  have p3 := pyInt_digits (h s₃ (by simp)).1 (h s₃ (by simp)).2
  have p4 := pyInt_digits (h s₄ (by simp)).1 (h s₄ (by simp)).2
  unfold parseRect
  rw [hstrip, splitPieces_rect4 s₁ s₂ s₃ s₄ h]
  simp [parseInts, p1, p2, p3, p4]

theorem rect4_ne_nil (s₁ s₂ s₃ s₄ : List Char) : rect4 s₁ s₂ s₃ s₄ ≠ [] := by
  simp [rect4]

theorem rect4_rectChars (s₁ s₂ s₃ s₄ : List Char)
    (h : ∀ s ∈ [s₁, s₂, s₃, s₄], s ≠ [] ∧ ∀ c ∈ s, c.isDigit = true) :
    ∀ c ∈ rect4 s₁ s₂ s₃ s₄, rectChar c = true := by
  intro c hc
  simp only [rect4, List.mem_append, List.mem_cons] at hc
  rcases hc with hc | hc | hc | hc | hc | hc | hc
  · exact digit_rectChar ((h s₁ (by simp)).2 c hc)
  · subst hc; decide
  · exact digit_rectChar ((h s₂ (by simp)).2 c hc)
  · subst hc; decide
  · exact digit_rectChar ((h s₃ (by simp)).2 c hc)
  · subst hc; decide
  · exact digit_rectChar ((h s₄ (by simp)).2 c hc)

/-- Parsing a single well-formed tag followed by tag-free text: exactly one
region, with the text whitespace-stripped. -/
theorem parseOcr_single_tag (ty rect rest : List Char) (bbox : List Int)
    (hty : ty ≠ []) (htyw : ∀ c ∈ ty, wordChar c = true)
    (hr : rect ≠ []) (hrw : ∀ c ∈ rect, rectChar c = true)
    (hbbox : parseRect rect = some bbox)
    (hrest : findTagMatches rest = []) :
    parseOcrResponse (tagChars ty rect ++ rest) = [⟨ty, bbox, pyStrip rest⟩] := by
  unfold parseOcrResponse
  rw [findTagMatches_tag_cons ty rect rest hty htyw hr hrw, hrest]
  simp only [List.map_nil]
  have hdrop : (tagChars ty rect ++ rest).drop (ty.length + rect.length + 4)
      = rest := by
    rw [← tagChars_length ty rect, List.drop_left]
  have hlen : (tagChars ty rect ++ rest).length - (ty.length + rect.length + 4)
      = rest.length := by
    rw [List.length_append, tagChars_length]
    omega
  unfold itemsOfMatches
  rw [hbbox]
  unfold itemsOfMatches
  simp only [hdrop, hlen, List.take_length]

/-! ## Claim C4 — failed match attempts stay failed across a following tag -/

theorem takeWhile_append_of_dropWhile_ne {p : Char → Bool} :
    ∀ (l l₂ : List Char), l.dropWhile p ≠ [] →
      (l ++ l₂).takeWhile p = l.takeWhile p := by
  intro l
  induction l with
  | nil => intro l₂ h; simp at h
  | cons a t ih =>
    intro l₂ h
    by_cases ha : p a = true
    · rw [List.dropWhile_cons_of_pos ha] at h
      rw [List.cons_append, List.takeWhile_cons_of_pos ha,
        List.takeWhile_cons_of_pos ha, ih l₂ h]
    · rw [List.cons_append, List.takeWhile_cons_of_neg (by simp [ha]),
        List.takeWhile_cons_of_neg (by simp [ha])]

theorem take_two_cons (a b : Char) (l : List Char) : (a :: b :: l).take 2 = [a, b] := rfl

theorem take_two_head (a : Char) (l : List Char) : (a :: l).take 2 = a :: l.take 1 := rfl

theorem drop_two_cons (a b : Char) (l : List Char) : (a :: b :: l).drop 2 = l := rfl

/-- If the tag pattern fails to match at the head of `u` (whose last character
is not a word character), then it still fails there after appending a string
that starts with a word character and whose first non-rect character is not a
closing bracket. -/
theorem tryTagMatch_append_none (u : List Char) (x : Char) (tX : List Char)
    (hu : tryTagMatch u = none)
    (hne : u ≠ [])
    (hlast : wordChar (u.getLast hne) = false)
    (hx : wordChar x = true)
    (hXdrop : ∃ d t, (x :: tX).dropWhile rectChar = d :: t ∧ d ≠ ']') :
    tryTagMatch (u ++ x :: tX) = none := by
  have hsplitu : u.takeWhile wordChar ++ u.dropWhile wordChar = u :=
    List.takeWhile_append_dropWhile wordChar u
  have hu'ne : u.dropWhile wordChar ≠ [] := by
    intro hnil
    have heq : u.takeWhile wordChar = u := by
      conv_rhs => rw [← hsplitu, hnil, List.append_nil]
    have hall := List.takeWhile_eq_self_iff.mp heq
    rw [hall (u.getLast hne) (List.getLast_mem hne)] at hlast
    cases hlast
  obtain ⟨h', t', hu'⟩ := List.exists_cons_of_ne_nil hu'ne
  have hh' : wordChar h' = false := dropWhile_head_false hu'
  have hWall : ∀ c ∈ u.takeWhile wordChar, wordChar c = true :=
    fun _ hc => List.mem_takeWhile_imp hc
  have hdecompU : u = u.takeWhile wordChar ++ (h' :: t') := by
    conv_lhs => rw [← hsplitu, hu']
  have hdecompA : u ++ x :: tX =
      u.takeWhile wordChar ++ ((h' :: t') ++ x :: tX) := by
    conv_lhs => rw [← hsplitu, hu']
    rw [List.append_assoc]
  have htakeA : (u ++ x :: tX).takeWhile wordChar = u.takeWhile wordChar := by
    rw [hdecompA, takeWhile_append_all hWall, List.cons_append,
      List.takeWhile_cons_of_neg (by simp [hh']), List.append_nil]
  have hdropA : (u ++ x :: tX).drop (u.takeWhile wordChar).length =
      (h' :: t') ++ x :: tX := by
    rw [hdecompA]
    exact List.drop_left _ _
  have hdropU : u.drop (u.takeWhile wordChar).length = h' :: t' := by
    nth_rewrite 2 [hdecompU]
    exact List.drop_left _ _
  unfold tryTagMatch
  simp only [htakeA, hdropA]
  by_cases hW : u.takeWhile wordChar = []
  · rw [if_pos hW]
  · rw [if_neg hW]
    by_cases hbrack : h' = '['
    case neg =>
      rw [if_neg]
      intro hc
      rw [List.cons_append, take_two_head, List.cons.injEq] at hc
      exact hbrack hc.1
    case pos =>
      subst hbrack
      cases t' with
      | nil =>
        rw [if_neg]
        intro hc
        rw [List.cons_append, List.nil_append, take_two_cons,
          List.cons.injEq, List.cons.injEq] at hc
        rw [hc.2.1] at hx
        exact absurd hx (by decide)
      | cons t2h u₂ =>
        by_cases h2 : t2h = '['
        case neg =>
          rw [if_neg]
          intro hc
          rw [List.cons_append, List.cons_append, take_two_cons,
            List.cons.injEq, List.cons.injEq] at hc
          exact h2 hc.2.1
        case pos =>
          subst h2
          have hA2 : ('[' :: '[' :: u₂) ++ x :: tX =
              '[' :: '[' :: (u₂ ++ x :: tX) := by
            simp
          rw [hA2, take_two_cons, if_pos rfl, drop_two_cons]
          cases hrem : u₂.dropWhile rectChar with
          | nil =>
            have hu₂take : u₂.takeWhile rectChar = u₂ := by
              have h := List.takeWhile_append_dropWhile rectChar u₂
              rwa [hrem, List.append_nil] at h
            have hall₂ : ∀ c ∈ u₂, rectChar c = true :=
              fun c hc => List.mem_takeWhile_imp (hu₂take ▸ hc)
            have htakeR : (u₂ ++ x :: tX).takeWhile rectChar =
                u₂ ++ (x :: tX).takeWhile rectChar :=
              takeWhile_append_all hall₂
            obtain ⟨d, tD, hXd, hdne⟩ := hXdrop
            have hXsplit : (x :: tX).takeWhile rectChar ++ (d :: tD) =
                x :: tX := by
              rw [← hXd]
              exact List.takeWhile_append_dropWhile rectChar _
            have hdecompR : u₂ ++ x :: tX =
                (u₂ ++ (x :: tX).takeWhile rectChar) ++ (d :: tD) := by
              rw [List.append_assoc, hXsplit]
            have hdropR : (u₂ ++ x :: tX).drop
                (u₂ ++ (x :: tX).takeWhile rectChar).length = d :: tD := by
              rw [hdecompR]
              exact List.drop_left _ _
            rw [htakeR]
            by_cases hRA : u₂ ++ (x :: tX).takeWhile rectChar = []
            · rw [if_pos hRA]
            · rw [if_neg hRA, hdropR, if_neg]
              intro hc
              rw [take_two_head, List.cons.injEq] at hc
              exact hdne hc.1
          | cons d₂ t₂ =>
            have hd₂ : rectChar d₂ = false := dropWhile_head_false hrem
            have hu₂split : u₂.takeWhile rectChar ++ (d₂ :: t₂) = u₂ := by
              rw [← hrem]
              exact List.takeWhile_append_dropWhile rectChar u₂
            have htakeR : (u₂ ++ x :: tX).takeWhile rectChar =
                u₂.takeWhile rectChar :=
              takeWhile_append_of_dropWhile_ne u₂ _ (by rw [hrem]; simp)
            have hdecompRA : u₂ ++ x :: tX =
                u₂.takeWhile rectChar ++ (d₂ :: (t₂ ++ x :: tX)) := by
              conv_lhs => rw [← hu₂split]
              simp
            have hdropRA : (u₂ ++ x :: tX).drop
                (u₂.takeWhile rectChar).length = d₂ :: (t₂ ++ x :: tX) := by
              rw [hdecompRA]
              exact List.drop_left _ _
            have hdropRU : u₂.drop (u₂.takeWhile rectChar).length =
                d₂ :: t₂ := by
              nth_rewrite 2 [show u₂ = u₂.takeWhile rectChar ++ (d₂ :: t₂) from
                hu₂split.symm]
              exact List.drop_left _ _
            rw [htakeR]
            by_cases hR : u₂.takeWhile rectChar = []
            · rw [if_pos hR]
            · rw [if_neg hR, hdropRA]
              by_cases hd₂e : d₂ = ']'
              case neg =>
                rw [if_neg]
                intro hc
                rw [take_two_head, List.cons.injEq] at hc
                exact hd₂e hc.1
              case pos =>
                subst hd₂e
                cases t₂ with
                | nil =>
                  rw [if_neg]
                  intro hc
                  rw [List.nil_append, take_two_cons, List.cons.injEq,
                    List.cons.injEq] at hc
                  rw [hc.2.1] at hx
                  exact absurd hx (by decide)
                | cons e t₃ =>
                  by_cases he : e = ']'
                  case pos =>
                    exfalso
                    subst he
                    have hsome : tryTagMatch u = some (u.takeWhile wordChar,
                        u₂.takeWhile rectChar,
                        (u.takeWhile wordChar).length +
                          (u₂.takeWhile rectChar).length + 4) := by
                      unfold tryTagMatch
                      simp only [hdropU]
                      rw [if_neg hW, take_two_cons, if_pos rfl, drop_two_cons,
                        if_neg hR, hdropRU, take_two_cons, if_pos rfl]
                    rw [hsome] at hu
                    cases hu
                  case neg =>
                    rw [if_neg]
                    intro hc
                    rw [List.cons_append, take_two_cons, List.cons.injEq,
                      List.cons.injEq] at hc
                    exact he hc.2.1

/-- The first non-rect character of a word run followed by `[` is a word
character or the bracket itself — never `]`. -/
theorem dropWhile_rect_tag : ∀ (ty : List Char), (∀ c ∈ ty, wordChar c = true) →
    ∀ (z : List Char),
      ∃ d t, (ty ++ '[' :: z).dropWhile rectChar = d :: t ∧ d ≠ ']' := by
  intro ty
  induction ty with
  | nil =>
    intro _ z
    exact ⟨'[', z,
      by rw [List.nil_append, List.dropWhile_cons_of_neg (by decide)],
      by decide⟩
  | cons c ty' ih =>
    intro h z
    by_cases hc : rectChar c = true
    · obtain ⟨d, t, hd, hd2⟩ := ih (fun a ha => h a (by simp [ha])) z
      exact ⟨d, t,
        by rw [List.cons_append, List.dropWhile_cons_of_pos hc]; exact hd, hd2⟩
    · refine ⟨c, ty' ++ '[' :: z,
        by rw [List.cons_append, List.dropWhile_cons_of_neg (by simp [hc])], ?_⟩
      intro hceq
      have hcw := h c (by simp)
      rw [hceq] at hcw
      exact absurd hcw (by decide)

/-- Scanning tag-free gap text followed by a well-formed tag and anything:
the gap contributes no matches and only an offset. -/
theorem findTagMatches_skip_gap : ∀ (r₁ : List Char),
    ∀ (ty rect s : List Char),
      findTagMatches r₁ = [] →
      (∀ (h : r₁ ≠ []), wordChar (r₁.getLast h) = false) →
      ty ≠ [] → (∀ c ∈ ty, wordChar c = true) →
      findTagMatches (r₁ ++ (tagChars ty rect ++ s)) =
        (findTagMatches (tagChars ty rect ++ s)).map (shiftMatch r₁.length) := by
  intro r₁
  induction r₁ with
  | nil =>
    intro ty rect s _ _ _ _
    rw [List.nil_append, List.length_nil]
    have hid : ∀ m ∈ findTagMatches (tagChars ty rect ++ s),
        shiftMatch 0 m = m := fun m _ => shiftMatch_zero m
    rw [List.map_congr_left hid, List.map_id']
  | cons c r₁' ih =>
    intro ty rect s h1 hlast hty htyw
    obtain ⟨t0, ty0, hty0⟩ := List.exists_cons_of_ne_nil hty
    have hXcons : tagChars ty rect ++ s =
        t0 :: (ty0 ++ ('[' :: '[' :: (rect ++ (']' :: ']' :: s)))) := by
      simp [tagChars, hty0]
    have htry : tryTagMatch (c :: r₁') = none := by
      cases hx : tryTagMatch (c :: r₁') with
      | none => rfl
      | some v =>
        obtain ⟨ty1, rect1, len1⟩ := v
        unfold findTagMatches at h1
        rw [scanTags_cons_zero] at h1
        simp only [hx] at h1
        exact absurd h1 (List.cons_ne_nil _ _)
    have h1' : findTagMatches r₁' = [] := by
      unfold findTagMatches at h1 ⊢
      rw [scanTags_cons_zero] at h1
      simp only [htry] at h1
      rw [scanTags_shift r₁' 0 1] at h1
      exact List.map_eq_nil_iff.mp h1
    have hlast' : ∀ (h : r₁' ≠ []), wordChar (r₁'.getLast h) = false := by
      intro h
      rw [← List.getLast_cons h]
      exact hlast (by simp)
    have hXdrop : ∃ d t, ((t0 :: (ty0 ++ ('[' :: '[' ::
        (rect ++ (']' :: ']' :: s))))).dropWhile rectChar) = d :: t ∧
        d ≠ ']' := by
      have h := dropWhile_rect_tag ty htyw ('[' :: (rect ++ (']' :: ']' :: s)))
      have heq : ty ++ '[' :: ('[' :: (rect ++ (']' :: ']' :: s))) =
          t0 :: (ty0 ++ ('[' :: '[' :: (rect ++ (']' :: ']' :: s)))) := by
        simp [hty0]
      rwa [heq] at h
    have htryA : tryTagMatch ((c :: r₁') ++
        (t0 :: (ty0 ++ ('[' :: '[' :: (rect ++ (']' :: ']' :: s)))))) = none :=
      tryTagMatch_append_none (c :: r₁') t0 _ htry (by simp)
        (hlast (by simp)) (htyw t0 (by simp [hty0])) hXdrop
    rw [hXcons, List.cons_append]
    unfold findTagMatches
    rw [scanTags_cons_zero]
    have htryA' : tryTagMatch (c :: (r₁' ++
        (t0 :: (ty0 ++ ('[' :: '[' :: (rect ++ (']' :: ']' :: s))))))) =
        none := by
      rw [← List.cons_append]
      exact htryA
    simp only [htryA']
    rw [scanTags_shift _ 0 1]
    have hihX := ih ty rect s h1' hlast' hty htyw
    rw [hXcons] at hihX
    unfold findTagMatches at hihX
    rw [hihX, List.map_map]
    have hfun : ∀ m ∈ scanTags
        (t0 :: (ty0 ++ ('[' :: '[' :: (rect ++ (']' :: ']' :: s))))) 0 0,
        (shiftMatch 1 ∘ shiftMatch r₁'.length) m =
          shiftMatch (c :: r₁').length m := by
      intro m _
      rw [Function.comp_apply, shiftMatch_shiftMatch, List.length_cons]
    rw [List.map_congr_left hfun]

/-- Parsing two well-formed tags separated and followed by tag-free text:
each region's text runs exactly from the end of its tag to the start of the
next tag (or end of content), whitespace-stripped. -/
theorem parseOcr_two_tags (ty₁ rect₁ r₁ ty₂ rect₂ r₂ : List Char)
    (bbox₁ bbox₂ : List Int)
    (hty₁ : ty₁ ≠ []) (htyw₁ : ∀ c ∈ ty₁, wordChar c = true)
    (hr₁ : rect₁ ≠ []) (hrw₁ : ∀ c ∈ rect₁, rectChar c = true)
    (hb₁ : parseRect rect₁ = some bbox₁)
    (hty₂ : ty₂ ≠ []) (htyw₂ : ∀ c ∈ ty₂, wordChar c = true)
    (hr₂ : rect₂ ≠ []) (hrw₂ : ∀ c ∈ rect₂, rectChar c = true)
    (hb₂ : parseRect rect₂ = some bbox₂)
    (hgap : findTagMatches r₁ = [])
    (hglast : ∀ (h : r₁ ≠ []), wordChar (r₁.getLast h) = false)
    (hrest : findTagMatches r₂ = []) :
    parseOcrResponse (tagChars ty₁ rect₁ ++ (r₁ ++ (tagChars ty₂ rect₂ ++ r₂)))
      = [⟨ty₁, bbox₁, pyStrip r₁⟩, ⟨ty₂, bbox₂, pyStrip r₂⟩] := by
  have hfind : findTagMatches
      (tagChars ty₁ rect₁ ++ (r₁ ++ (tagChars ty₂ rect₂ ++ r₂))) =
      [⟨ty₁, rect₁, 0, ty₁.length + rect₁.length + 4⟩,
       ⟨ty₂, rect₂,
        0 + r₁.length + (ty₁.length + rect₁.length + 4),
        ty₂.length + rect₂.length + 4 + r₁.length +
          (ty₁.length + rect₁.length + 4)⟩] := by
    rw [findTagMatches_tag_cons ty₁ rect₁ _ hty₁ htyw₁ hr₁ hrw₁,
      findTagMatches_skip_gap r₁ ty₂ rect₂ r₂ hgap hglast hty₂ htyw₂,
      findTagMatches_tag_cons ty₂ rect₂ r₂ hty₂ htyw₂ hr₂ hrw₂, hrest]
    simp [shiftMatch]
  have hdrop1 : (tagChars ty₁ rect₁ ++
      (r₁ ++ (tagChars ty₂ rect₂ ++ r₂))).drop
        (ty₁.length + rect₁.length + 4) =
      r₁ ++ (tagChars ty₂ rect₂ ++ r₂) := by
    rw [← tagChars_length ty₁ rect₁]
    exact List.drop_left _ _
  have harith1 : 0 + r₁.length + (ty₁.length + rect₁.length + 4) -
      (ty₁.length + rect₁.length + 4) = r₁.length := by
    omega
  have hdecomp : tagChars ty₁ rect₁ ++ (r₁ ++ (tagChars ty₂ rect₂ ++ r₂)) =
      (tagChars ty₁ rect₁ ++ (r₁ ++ tagChars ty₂ rect₂)) ++ r₂ := by
    simp [List.append_assoc]
  have hplen : (tagChars ty₁ rect₁ ++ (r₁ ++ tagChars ty₂ rect₂)).length =
      ty₂.length + rect₂.length + 4 + r₁.length +
        (ty₁.length + rect₁.length + 4) := by
    simp only [List.length_append, tagChars_length]
    omega
  have hdrop2 : (tagChars ty₁ rect₁ ++
      (r₁ ++ (tagChars ty₂ rect₂ ++ r₂))).drop
        (ty₂.length + rect₂.length + 4 + r₁.length +
          (ty₁.length + rect₁.length + 4)) = r₂ := by
    rw [hdecomp, ← hplen]
    exact List.drop_left _ _
  have harith2 : (tagChars ty₁ rect₁ ++
      (r₁ ++ (tagChars ty₂ rect₂ ++ r₂))).length -
      (ty₂.length + rect₂.length + 4 + r₁.length +
        (ty₁.length + rect₁.length + 4)) = r₂.length := by
    simp only [List.length_append, tagChars_length]
    omega
  unfold parseOcrResponse
  rw [hfind]
  unfold itemsOfMatches
  rw [hb₁]
  unfold itemsOfMatches
  rw [hb₂]
  unfold itemsOfMatches
  simp only [hdrop1, harith1, hdrop2, harith2, List.take_left,
    List.take_length]

/-- Counterexample to C4 as stated: the parser strips whitespace from the
region text, so the text is not the raw content between the tag and the end of
input — `T[[1,2,3,4]] hi` yields text `hi`, not ` hi`. -/
theorem claim_C4_counterexample :
    parseOcrResponse "T[[1,2,3,4]] hi".data =
      [⟨"T".data, [1, 2, 3, 4], "hi".data⟩] ∧
    "hi".data ≠ " hi".data := by
  refine ⟨by decide, by decide⟩

/-- C4 (amended): for every input consisting of one well-formed region tag
`TYPE[[x1,y1,x2,y2]]` (`TYPE` a word, `x1..y2` decimal numerals) followed by
tag-free region text, `parse_ocr_response` yields exactly one region with
`type = TYPE`, `bbox = [x1,y1,x2,y2]`, and text equal to the
whitespace-stripped text following the tag up to end of content; and with two
tags in the input (the gap text tag-free and not ending in a word character,
so it cannot merge with the second tag's type), each region's text is the
whitespace-stripped text running exactly up to the start of the next tag (or
end of content for the last region). -/
theorem claim_C4_region_roundtrip :
    (∀ (ty s₁ s₂ s₃ s₄ rest : List Char),
      ty ≠ [] → (∀ c ∈ ty, wordChar c = true) →
      (∀ s ∈ [s₁, s₂, s₃, s₄], s ≠ [] ∧ ∀ c ∈ s, c.isDigit = true) →
      findTagMatches rest = [] →
      parseOcrResponse (tagChars ty (rect4 s₁ s₂ s₃ s₄) ++ rest) =
        [⟨ty, [(digitsVal s₁ : Int), digitsVal s₂, digitsVal s₃, digitsVal s₄],
          pyStrip rest⟩]) ∧
    (∀ (ty₁ a₁ a₂ a₃ a₄ r₁ ty₂ b₁ b₂ b₃ b₄ r₂ : List Char),
      ty₁ ≠ [] → (∀ c ∈ ty₁, wordChar c = true) →
      (∀ s ∈ [a₁, a₂, a₃, a₄], s ≠ [] ∧ ∀ c ∈ s, c.isDigit = true) →
      ty₂ ≠ [] → (∀ c ∈ ty₂, wordChar c = true) →
      (∀ s ∈ [b₁, b₂, b₃, b₄], s ≠ [] ∧ ∀ c ∈ s, c.isDigit = true) →
      findTagMatches r₁ = [] →
      (∀ (h : r₁ ≠ []), wordChar (r₁.getLast h) = false) →
      findTagMatches r₂ = [] →
      parseOcrResponse (tagChars ty₁ (rect4 a₁ a₂ a₃ a₄) ++
          (r₁ ++ (tagChars ty₂ (rect4 b₁ b₂ b₃ b₄) ++ r₂))) =
        [⟨ty₁, [(digitsVal a₁ : Int), digitsVal a₂, digitsVal a₃, digitsVal a₄],
          pyStrip r₁⟩,
         ⟨ty₂, [(digitsVal b₁ : Int), digitsVal b₂, digitsVal b₃, digitsVal b₄],
          pyStrip r₂⟩]) := by
  constructor
  · intro ty s₁ s₂ s₃ s₄ rest hty htyw hdigits hrest
    exact parseOcr_single_tag ty (rect4 s₁ s₂ s₃ s₄) rest _ hty htyw
      (rect4_ne_nil s₁ s₂ s₃ s₄) (rect4_rectChars s₁ s₂ s₃ s₄ hdigits)
      (parseRect_rect4 s₁ s₂ s₃ s₄ hdigits) hrest
  · intro ty₁ a₁ a₂ a₃ a₄ r₁ ty₂ b₁ b₂ b₃ b₄ r₂ hty₁ htyw₁ ha hty₂ htyw₂ hb
      hgap hglast hrest
    exact parseOcr_two_tags ty₁ (rect4 a₁ a₂ a₃ a₄) r₁ ty₂
      (rect4 b₁ b₂ b₃ b₄) r₂ _ _ hty₁ htyw₁ (rect4_ne_nil a₁ a₂ a₃ a₄)
      (rect4_rectChars a₁ a₂ a₃ a₄ ha) (parseRect_rect4 a₁ a₂ a₃ a₄ ha)
      hty₂ htyw₂ (rect4_ne_nil b₁ b₂ b₃ b₄) (rect4_rectChars b₁ b₂ b₃ b₄ hb)
      (parseRect_rect4 b₁ b₂ b₃ b₄ hb) hgap hglast hrest

/-- Witness for C4 on concrete tags: `title[[12,34,56,78]] Hello` and
`title[[12,34,56,78]] body. text[[1,2,3,4]] tail`. -/
theorem claim_C4_witness :
    parseOcrResponse (tagChars "title".data
        (rect4 "12".data "34".data "56".data "78".data) ++ " Hello".data) =
      [⟨"title".data,
        [(digitsVal "12".data : Int), digitsVal "34".data,
         digitsVal "56".data, digitsVal "78".data],
        pyStrip " Hello".data⟩] ∧
    parseOcrResponse (tagChars "title".data
        (rect4 "12".data "34".data "56".data "78".data) ++
        (" body. ".data ++ (tagChars "text".data
          (rect4 "1".data "2".data "3".data "4".data) ++ " tail".data))) =
      [⟨"title".data,
        [(digitsVal "12".data : Int), digitsVal "34".data,
         digitsVal "56".data, digitsVal "78".data],
        pyStrip " body. ".data⟩,
       ⟨"text".data,
        [(digitsVal "1".data : Int), digitsVal "2".data,
         digitsVal "3".data, digitsVal "4".data],
        pyStrip " tail".data⟩] :=
  ⟨claim_C4_region_roundtrip.1 "title".data "12".data "34".data "56".data
     "78".data " Hello".data (by decide) (by decide) (by decide) (by decide),
   claim_C4_region_roundtrip.2 "title".data "12".data "34".data "56".data
     "78".data " body. ".data "text".data "1".data "2".data "3".data "4".data
     " tail".data (by decide) (by decide) (by decide) (by decide) (by decide)
     (by decide) (by decide) (by decide) (by decide)⟩

end DailyPapers
